import Mathlib

/-!
Verification of the model versioning and lifecycle registry of the
Enterprise Task Management System's AI service
(`ai-python-service/app/models/`: `metadata.py`, `version_manager.py`,
`model_manager.py`, `config_loader.py`).

The Python code is shallowly embedded:

* Python dicts (insertion ordered, string keyed) are association lists
  (`dictGet`, `dictSet`, `dictMem`).
* The filesystem is part of the explicit state: model artifact files are a
  map from path to byte content (`List Nat`); each `metadata.json` and each
  per-type `registry.json` is kept as structured data in the state, which
  models the fact that the code always writes these files from well formed
  in-memory values and parses them back (the JSON round trip is the
  identity).  Filesystem writes are modeled as always succeeding; the
  `except`-branches of the Python code that swallow I/O errors are
  therefore never taken in the model.
* SHA-256 (`calculate_file_hash`) is an uninterpreted parameter
  `hash : List Nat → String` threaded through every operation that hashes
  file content; theorems hold for every choice of this function.
* `datetime.now()` is a `Nat` parameter `now` passed to the operations that
  stamp times.
* Python string comparison (used by `sorted(versions, reverse=True)`) is
  lexicographic on code points; it is embedded as `pyStrLe`/`pyGe`, and
  Python's stable `sorted` is modeled by `List.insertionSort`, which agrees
  with it because `pyGe` is a total, transitive, antisymmetric order, so the
  sorted permutation of a list is unique.
-/

namespace TaskMgmt

/-! ## Python dict as an association list -/

/-- `d[k]` lookup for a Python dict modeled as an ordered association list. -/
def dictGet {α : Type} (k : String) : List (String × α) → Option α
  | [] => none
  | (k1, v) :: rest => if k1 = k then some v else dictGet k rest

/-- `d[k] = v` on a Python dict: replaces the value in place when the key is
present (preserving insertion order), otherwise appends a new entry. -/
def dictSet {α : Type} (k : String) (v : α) : List (String × α) → List (String × α)
  | [] => [(k, v)]
  | (k1, v1) :: rest => if k1 = k then (k, v) :: rest else (k1, v1) :: dictSet k v rest

/-- `k in d` on a Python dict. -/
def dictMem {α : Type} (k : String) (d : List (String × α)) : Bool :=
  (dictGet k d).isSome

/-! ## Python string ordering (code-point lexicographic) -/

/-- Lexicographic `≤` on code-point sequences: the order Python uses to
compare `str` values. -/
def codesLe : List Nat → List Nat → Bool
  | [], _ => true
  | _ :: _, [] => false
  | a :: as, b :: bs =>
    if a < b then true else if b < a then false else codesLe as bs

/-- Python `a <= b` on strings. -/
def pyStrLe (a b : String) : Bool :=
  codesLe (a.data.map Char.toNat) (b.data.map Char.toNat)

/-- `pyGe a b` holds when `a` is greater than or equal to `b` in Python's
string order; sorting by this relation gives a descending list. -/
def pyGe (a b : String) : Prop := pyStrLe b a = true

instance : DecidableRel pyGe := fun a b => by unfold pyGe; infer_instance

/-- Python `sorted(l, reverse=True)` on strings: since `pyGe` is total,
transitive and antisymmetric, any sorting algorithm produces the same
(descending) list; the model uses insertion sort. -/
def pySortDesc (l : List String) : List String := List.insertionSort pyGe l

/-! Rational literals for the Python float constants, in explicit
lowest-terms form (a `ℚ` built with `/` does not reduce in the kernel). -/

/-- `0.7` -/
def q0x7 : ℚ := ⟨7, 10, by decide, by decide⟩
/-- `0.9` -/
def q0x9 : ℚ := ⟨9, 10, by decide, by decide⟩
/-- `0.1` -/
def q0x1 : ℚ := ⟨1, 10, by decide, by decide⟩
/-- `0.5` -/
def q0x5 : ℚ := ⟨1, 2, by decide, by decide⟩
/-- `0.3` -/
def q0x3 : ℚ := ⟨3, 10, by decide, by decide⟩

/-! ## `metadata.py`: enums, `ModelMetadata`, `ModelConfig` -/

/-- `ModelType` enum (`metadata.py`). -/
inductive ModelType
  | taskParser
  | prioritizer
  | insights
deriving DecidableEq, Repr

/-- `.value` of a `ModelType` member. -/
def ModelType.value : ModelType → String
  | .taskParser => "task_parser"
  | .prioritizer => "prioritizer"
  | .insights => "insights"

/-- `ModelType(s)`: enum lookup by value; `none` models the `ValueError`. -/
def modelTypeOfString (s : String) : Option ModelType :=
  if s = "task_parser" then some .taskParser
  else if s = "prioritizer" then some .prioritizer
  else if s = "insights" then some .insights
  else none

/-- `ModelStatus` enum (`metadata.py`). -/
inductive ModelStatus
  | available
  | loading
  | error
  | deprecated
deriving DecidableEq, Repr

/-- `.value` of a `ModelStatus` member. -/
def ModelStatus.value : ModelStatus → String
  | .available => "available"
  | .loading => "loading"
  | .error => "error"
  | .deprecated => "deprecated"

/-- Scalar JSON-style value, the value type of the free-form `config`
dictionaries (`Dict[str, Any]` whose values come from a JSON document). -/
inductive ConfigVal
  | str (s : String)
  | int (n : Int)
  | rat (q : ℚ)
  | bool (b : Bool)
  | null
deriving DecidableEq, Repr

/-- `ModelMetadata` (`metadata.py`).  Timestamps are `Nat` instants. -/
structure ModelMetadata where
  name : String
  version : String
  model_type : ModelType
  description : Option String
  file_path : String
  file_size_bytes : Nat
  file_hash : String
  model_source : String
  model_id : Option String
  memory_requirement_mb : Int
  inference_time_ms : Option Int
  accuracy_score : Option ℚ
  created_at : Nat
  updated_at : Nat
  status : ModelStatus
  dependencies : List String
  python_version : Option String
  framework_version : Option String
  config : List (String × ConfigVal)
deriving DecidableEq, Repr

/-- `ModelMetadata.validate_accuracy_score` (pydantic validator):
rejects a present score outside `[0, 1]`. -/
def validate_accuracy_score (v : Option ℚ) : Except String (Option ℚ) :=
  match v with
  | some q =>
      if q < 0 ∨ q > 1 then .error "Accuracy score must be between 0.0 and 1.0"
      else .ok (some q)
  | none => .ok none

/-- `ModelMetadata.validate_file_hash` (pydantic validator): rejects any
string whose length is not 64; the content of the 64 characters is not
inspected. -/
def validate_file_hash (v : String) : Except String String :=
  if v.length ≠ 64 then .error "File hash must be a valid SHA-256 hash"
  else .ok v

/-- Construction of a `ModelMetadata` value: pydantic runs the field
validators at construction time (`file_hash` is declared before
`accuracy_score`, so its validator fires first); a raised `ValueError` is
the `.error` case. -/
def mkModelMetadata (name version : String) (model_type : ModelType)
    (description : Option String) (file_path : String) (file_size_bytes : Nat)
    (file_hash : String) (model_source : String) (model_id : Option String)
    (memory_requirement_mb : Int) (inference_time_ms : Option Int)
    (accuracy_score : Option ℚ) (created_at updated_at : Nat)
    (status : ModelStatus) (dependencies : List String)
    (python_version framework_version : Option String)
    (config : List (String × ConfigVal)) : Except String ModelMetadata := do
  let fh ← validate_file_hash file_hash
  let acc ← validate_accuracy_score accuracy_score
  .ok { name := name, version := version, model_type := model_type,
        description := description, file_path := file_path,
        file_size_bytes := file_size_bytes, file_hash := fh,
        model_source := model_source, model_id := model_id,
        memory_requirement_mb := memory_requirement_mb,
        inference_time_ms := inference_time_ms, accuracy_score := acc,
        created_at := created_at, updated_at := updated_at, status := status,
        dependencies := dependencies, python_version := python_version,
        framework_version := framework_version, config := config }

/-- `create_model_metadata` (`metadata.py`): fails when the file is absent,
otherwise stats the file for its size, hashes its content, stamps
`created_at = updated_at = now` and defaults `status = AVAILABLE`,
`dependencies = []`.  `fs` is the current artifact filesystem. -/
def create_model_metadata (hash : List Nat → String)
    (fs : List (String × List Nat)) (name version : String)
    (model_type : ModelType) (file_path model_source : String)
    (memory_requirement_mb : Int) (description : Option String)
    (model_id : Option String) (config : List (String × ConfigVal))
    (now : Nat) : Except String ModelMetadata :=
  match dictGet file_path fs with
  | none => .error ("Model file not found: " ++ file_path)
  | some content =>
      mkModelMetadata name version model_type description file_path
        content.length (hash content) model_source model_id
        memory_requirement_mb none none now now .available [] none none config

/-- `ModelConfig` (`metadata.py`).  Integer-typed Python fields are `Int`,
float-typed ones `ℚ`. -/
structure ModelConfig where
  model_type : ModelType
  name : String
  version : String
  device : String
  precision : String
  max_memory_mb : Option Int
  max_length : Int
  temperature : ℚ
  top_p : ℚ
  top_k : Int
  cache_enabled : Bool
  cache_size : Int
  cache_ttl_seconds : Int
  batch_size : Int
  timeout_seconds : Int
  custom_params : List (String × ConfigVal)
deriving DecidableEq, Repr

/-- `ModelConfig.validate_temperature`: requires `0 < v ≤ 2`. -/
def validate_temperature (v : ℚ) : Except String ℚ :=
  if v ≤ 0 ∨ v > 2 then .error "Temperature must be between 0.0 and 2.0"
  else .ok v

/-- `ModelConfig.validate_top_p`: requires `0 < v ≤ 1`. -/
def validate_top_p (v : ℚ) : Except String ℚ :=
  if v ≤ 0 ∨ v > 1 then .error "Top-p must be between 0.0 and 1.0"
  else .ok v

/-- The class defaults of `ModelConfig`, seeded with the identity triple
(`model_type`/`name`/`version` are the required fields). -/
def defaultModelConfig (t : ModelType) (name version : String) : ModelConfig :=
  { model_type := t, name := name, version := version, device := "cpu",
    precision := "float32", max_memory_mb := none, max_length := 512,
    temperature := q0x7, top_p := q0x9, top_k := 50,
    cache_enabled := true, cache_size := 100, cache_ttl_seconds := 3600,
    batch_size := 1, timeout_seconds := 30, custom_params := [] }

/-- Numeric coercion to an `int`-typed pydantic field (Python `bool` is an
`int` subclass, so `True`/`False` coerce to `1`/`0`; string-to-number
coercions are not modeled). -/
def configValInt : ConfigVal → Option Int
  | .int n => some n
  | .bool b => some (if b then 1 else 0)
  | _ => none

/-- Numeric coercion to a `float`-typed pydantic field. -/
def configValRat : ConfigVal → Option ℚ
  | .rat q => some q
  | .int n => some (n : ℚ)
  | .bool b => some (if b then 1 else 0)
  | _ => none

/-- Assignment of one key of the keyword dictionary to a `ModelConfig`
field: a known field with an incoercible value is a pydantic validation
error (`none`); unknown keys are ignored (pydantic v1 default). -/
def applyConfigOverride (c : ModelConfig) (kv : String × ConfigVal) :
    Option ModelConfig :=
  match kv with
  | ("model_type", .str s) => (modelTypeOfString s).map (fun t => { c with model_type := t })
  | ("model_type", _) => none
  | ("name", .str s) => some { c with name := s }
  | ("name", _) => none
  | ("version", .str s) => some { c with version := s }
  | ("version", _) => none
  | ("device", .str s) => some { c with device := s }
  | ("device", _) => none
  | ("precision", .str s) => some { c with precision := s }
  | ("precision", _) => none
  | ("max_memory_mb", .null) => some { c with max_memory_mb := none }
  | ("max_memory_mb", v) => (configValInt v).map (fun n => { c with max_memory_mb := some n })
  | ("max_length", v) => (configValInt v).map (fun n => { c with max_length := n })
  | ("temperature", v) => (configValRat v).map (fun q => { c with temperature := q })
  | ("top_p", v) => (configValRat v).map (fun q => { c with top_p := q })
  | ("top_k", v) => (configValInt v).map (fun n => { c with top_k := n })
  | ("cache_enabled", .bool b) => some { c with cache_enabled := b }
  | ("cache_enabled", _) => none
  | ("cache_size", v) => (configValInt v).map (fun n => { c with cache_size := n })
  | ("cache_ttl_seconds", v) => (configValInt v).map (fun n => { c with cache_ttl_seconds := n })
  | ("batch_size", v) => (configValInt v).map (fun n => { c with batch_size := n })
  | ("timeout_seconds", v) => (configValInt v).map (fun n => { c with timeout_seconds := n })
  | ("custom_params", _) => none
  | (_, _) => some c

/-- `ModelConfig(**config_data)` where `config_data` is the identity triple
updated with the `overrides` dictionary: field assignment followed by the
two range validators; `none` models a raised pydantic `ValidationError`. -/
def buildModelConfig (t : ModelType) (name version : String)
    (overrides : List (String × ConfigVal)) : Option ModelConfig :=
  match overrides.foldlM applyConfigOverride (defaultModelConfig t name version) with
  | none => none
  | some c =>
      match validate_temperature c.temperature, validate_top_p c.top_p with
      | .ok _, .ok _ => some c
      | _, _ => none

/-! ## `version_manager.py`: `ModelVersionManager` -/

/-- One entry of a per-type `registry.json` index (`register_model` writes
these denormalized summaries keyed by `"name:version"`). -/
structure RegistryEntry where
  name : String
  version : String
  status : ModelStatus
  created_at : Nat
  updated_at : Nat
  file_path : String
  memory_requirement_mb : Int
deriving DecidableEq, Repr

/-- `get_model_directory`: `<base>/<type>/<name>/<version>`. -/
def modelDirPath (base : String) (t : ModelType) (name version : String) : String :=
  base ++ "/" ++ t.value ++ "/" ++ name ++ "/" ++ version

/-- Path of a version's `metadata.json`. -/
def metadataFilePath (base : String) (t : ModelType) (name version : String) : String :=
  modelDirPath base t name version ++ "/metadata.json"

/-- The state of a `ModelVersionManager` together with the filesystem it
manages: `registries` is the parsed content of each type's `registry.json`
(`registry["models"]`), `metadataFiles` maps each written `metadata.json`
path to its parsed content, `metadataCache` is `_metadata_cache` (keyed by
`"name:version"` only), and `fileBytes` maps artifact file paths to bytes. -/
structure VMState where
  models_base_path : String
  registries : ModelType → List (String × RegistryEntry)
  metadataFiles : List (String × ModelMetadata)
  metadataCache : List (String × ModelMetadata)
  fileBytes : List (String × List Nat)

/-- A freshly constructed `ModelVersionManager` over an empty directory:
empty registries, empty metadata cache. -/
def initVMState (base : String) : VMState :=
  { models_base_path := base, registries := fun _ => [],
    metadataFiles := [], metadataCache := [], fileBytes := [] }

/-- Pointwise update of the per-type registries. -/
def setRegistry (regs : ModelType → List (String × RegistryEntry))
    (t : ModelType) (r : List (String × RegistryEntry)) :
    ModelType → List (String × RegistryEntry) :=
  fun t2 => if t2 = t then r else regs t2

/-- `ModelVersionManager.register_model`: writes `metadata.json`, updates
the type's registry index under key `"name:version"`, caches the metadata
under the same key.  Filesystem writes succeed in the model, so the
`except` branch returning `False` is never taken.
(`regEntryOf` is the denormalized registry summary it writes.) -/
def regEntryOf (m : ModelMetadata) : RegistryEntry :=
  { name := m.name, version := m.version, status := m.status,
    created_at := m.created_at, updated_at := m.updated_at,
    file_path := m.file_path,
    memory_requirement_mb := m.memory_requirement_mb }

/-- `ModelVersionManager.register_model`, see `regEntryOf`. -/
def register_model (s : VMState) (m : ModelMetadata) : VMState × Bool :=
  ({ s with
      metadataFiles := dictSet
        (metadataFilePath s.models_base_path m.model_type m.name m.version)
        m s.metadataFiles,
      registries := setRegistry s.registries m.model_type
        (dictSet (m.name ++ ":" ++ m.version) (regEntryOf m)
          (s.registries m.model_type)),
      metadataCache := dictSet (m.name ++ ":" ++ m.version) m s.metadataCache },
    true)

/-- `ModelVersionManager.get_model_metadata`: cache-first under key
`"name:version"` (the model type is NOT part of the cache key); on a miss,
reads the `metadata.json` of the requested type's directory and populates
the cache. -/
def get_model_metadata (s : VMState) (t : ModelType) (name version : String) :
    VMState × Option ModelMetadata :=
  match dictGet (name ++ ":" ++ version) s.metadataCache with
  | some m => (s, some m)
  | none =>
      match dictGet (metadataFilePath s.models_base_path t name version) s.metadataFiles with
      | none => (s, none)
      | some m =>
          ({ s with metadataCache := dictSet (name ++ ":" ++ version) m s.metadataCache },
            some m)

/-- `key.split(":", 1)`: split at the first colon.  A key without a colon is
returned as `(key, "")`; registry keys always contain one. -/
def splitFirstColonAux : List Char → Option (List Char × List Char)
  | [] => none
  | c :: cs =>
      if c = ':' then some ([], cs)
      else
        match splitFirstColonAux cs with
        | none => none
        | some (l, r) => some (c :: l, r)

/-- String-level `split(":", 1)`. -/
def splitFirstColon (s : String) : String × String :=
  match splitFirstColonAux s.data with
  | none => (s, "")
  | some (l, r) => (⟨l⟩, ⟨r⟩)

/-- `ModelVersionManager.list_versions`: collect the versions of the
registry keys whose name part matches, then `sorted(..., reverse=True)`. -/
def list_versions (s : VMState) (t : ModelType) (name : String) : List String :=
  let versions := (s.registries t).filterMap (fun kv =>
    let nv := splitFirstColon kv.1
    if nv.1 = name then some nv.2 else none)
  pySortDesc versions

/-- `ModelVersionManager.get_latest_version`: head of `list_versions`. -/
def get_latest_version (s : VMState) (t : ModelType) (name : String) : Option String :=
  (list_versions s t name).head?

/-- Registering a list of metadata in order (the registration scenario of
the version-ordering property). -/
def regAll (s : VMState) (ms : List ModelMetadata) : VMState :=
  ms.foldl (fun s2 m => (register_model s2 m).1) s

/-- The version strings registered by `ms` for a given type and name, in
registration order. -/
def versionsOf (ms : List ModelMetadata) (t : ModelType) (name : String) : List String :=
  ms.filterMap (fun m =>
    if m.model_type = t ∧ m.name = name then some m.version else none)

/-- The `"name:version"` registry keys contributed by `ms` to one type's
registry. -/
def typeKeys (ms : List ModelMetadata) (t : ModelType) : List String :=
  ms.filterMap (fun m =>
    if m.model_type = t then some (m.name ++ ":" ++ m.version) else none)

/-- The registry index produced by registering `ms` under fresh keys. -/
def regListOf (ms : List ModelMetadata) (t : ModelType) : List (String × RegistryEntry) :=
  ms.filterMap (fun m =>
    if m.model_type = t then
      some (m.name ++ ":" ++ m.version, regEntryOf m)
    else none)

/-- `ModelVersionManager.update_model_status`: re-reads the metadata
(cache-first), mutates `status` and `updated_at`, rewrites `metadata.json`
(at the path of the *requested* type), updates the registry summary if the
key is present, refreshes the cache. -/
def update_model_status (s : VMState) (t : ModelType) (name version : String)
    (status : ModelStatus) (now : Nat) : VMState × Bool :=
  match get_model_metadata s t name version with
  | (s1, none) => (s1, false)
  | (s1, some md) =>
      let md2 := { md with status := status, updated_at := now }
      let mpath := metadataFilePath s1.models_base_path t name version
      let s2 := { s1 with metadataFiles := dictSet mpath md2 s1.metadataFiles }
      let key := name ++ ":" ++ version
      let s3 :=
        match dictGet key (s2.registries t) with
        | some e =>
            { s2 with registries :=
                (setRegistry s2.registries t
                  (dictSet key { e with status := status, updated_at := now }
                    (s2.registries t))) }
        | none => s2
      ({ s3 with metadataCache := dictSet key md2 s3.metadataCache }, true)

/-- `ModelVersionManager.validate_model_integrity`: metadata presence, then
file existence, then size comparison, then hash comparison; the first
failing condition produces the `(False, reason)` result.  The
hash-computation `except` branch is unreachable in the model because the
file was just found and `hash` is total. -/
def validate_model_integrity (hash : List Nat → String) (s : VMState)
    (t : ModelType) (name version : String) : VMState × (Bool × String) :=
  match get_model_metadata s t name version with
  | (s1, none) => (s1, (false, "Model metadata not found"))
  | (s1, some md) =>
      match dictGet md.file_path s1.fileBytes with
      | none => (s1, (false, "Model file not found: " ++ md.file_path))
      | some content =>
          if content.length ≠ md.file_size_bytes then
            (s1, (false, "File size mismatch: expected " ++
              toString md.file_size_bytes ++ ", got " ++ toString content.length))
          else if hash content ≠ md.file_hash then
            (s1, (false, "File hash mismatch: expected " ++ md.file_hash ++
              ", got " ++ hash content))
          else (s1, (true, "Model integrity validated"))

/-- `ModelVersionManager.get_model_config`: seeds the config dictionary
with the identity triple, merges the metadata's stored `config`, constructs
a `ModelConfig` (validation failure gives `None`). -/
def get_model_config (s : VMState) (t : ModelType) (name version : String) :
    VMState × Option ModelConfig :=
  match get_model_metadata s t name version with
  | (s1, none) => (s1, none)
  | (s1, some md) => (s1, buildModelConfig t name version md.config)

/-! ## `model_manager.py`: `ModelManager` -/

/-- The in-memory record stored in `_loaded_models` (the `mock_model`
dictionary built by `load_model`). -/
structure LoadedModel where
  name : String
  version : String
  mtype : String
  loaded_at : Nat
  metadata : ModelMetadata
  config : ModelConfig
  status : String
deriving DecidableEq, Repr

/-- The state of a `ModelManager`: the wrapped version manager, the three
keyed in-memory tables (`_loaded_models`, `_model_configs`, `_load_times`),
`_inference_stats`, and the two gauges the metrics service records.
Threading is not modeled (operations run to completion one at a time), so
the per-key loading locks carry no information. -/
structure MMState where
  vm : VMState
  loaded_models : List (String × LoadedModel)
  model_configs : List (String × ModelConfig)
  load_times : List (String × Nat)
  inference_stats : List (String × List ℚ)
  metrics_active_models : Nat
  metrics_model_memory : List (String × Int)

/-- `ModelManager.get_model_key`: `"type:name:version"`. -/
def get_model_key (t : ModelType) (name version : String) : String :=
  t.value ++ ":" ++ name ++ ":" ++ version

/-- `ModelManager.load_model`.  Resolves the latest version when `version?`
is absent; returns `True` immediately when the key is already loaded (the
double-checked re-test after taking the lock sees the same state in the
sequential model); otherwise fetches metadata, validates integrity (on
failure sets status ERROR), sets status LOADING, builds the runtime config
(on failure returns `False` with the status left at LOADING), stores the
in-memory record, sets status AVAILABLE and updates the gauges.  The
`except` branch (status ERROR) is unreachable in the model since no step
raises. -/
def load_model (hash : List Nat → String) (s : MMState) (t : ModelType)
    (name : String) (version? : Option String) (now : Nat) : MMState × Bool :=
  match (match version? with
         | none => get_latest_version s.vm t name
         | some v => some v) with
  | none => (s, false)
  | some version =>
      let model_key := get_model_key t name version
      if dictMem model_key s.loaded_models then (s, true)
      else
        match get_model_metadata s.vm t name version with
        | (vm1, none) => ({ s with vm := vm1 }, false)
        | (vm1, some metadata) =>
            match validate_model_integrity hash vm1 t name version with
            | (vm2, (false, _msg)) =>
                let r := update_model_status vm2 t name version ModelStatus.error now
                ({ s with vm := r.1 }, false)
            | (vm2, (true, _msg)) =>
                let r := update_model_status vm2 t name version ModelStatus.loading now
                match get_model_config r.1 t name version with
                | (vm4, none) => ({ s with vm := vm4 }, false)
                | (vm4, some config) =>
                    let mock : LoadedModel :=
                      { name := name, version := version, mtype := t.value,
                        loaded_at := now, metadata := metadata,
                        config := config, status := "loaded" }
                    let newLoaded := dictSet model_key mock s.loaded_models
                    let r2 := update_model_status vm4 t name version ModelStatus.available now
                    let memBytes := metadata.memory_requirement_mb * 1024 * 1024
                    ({ s with
                        vm := r2.1,
                        loaded_models := newLoaded,
                        model_configs := dictSet model_key config s.model_configs,
                        load_times := dictSet model_key now s.load_times,
                        metrics_active_models := newLoaded.length,
                        metrics_model_memory :=
                          (dictSet (t.value ++ ":" ++ version) memBytes
                            s.metrics_model_memory) }, true)

/-- `ModelManager.is_model_loaded`. -/
def is_model_loaded (s : MMState) (t : ModelType) (name version : String) : Bool :=
  dictMem (get_model_key t name version) s.loaded_models

/-! ## Processing entry points (`model_manager.py`)

Each entry point wraps an external analyzer (`TaskParser`,
`TaskPrioritizer`, `InsightGenerator`), catching every exception it raises
and producing a structured fallback dictionary instead.  The analyzers (and
`json.loads`) are uninterpreted function parameters returning
`Except String _` — the `.error` case models a raised exception.  The
`lru_cache` decorators cache a pure function and are semantics-preserving;
metrics/latency bookkeeping does not affect the returned value and is
omitted here. -/

/-- A Python value as handled by the processing entry points (the
`Dict[str, Any]` results and the value parsed from JSON input). -/
inductive PyVal
  | str (s : String)
  | int (n : Int)
  | rat (q : ℚ)
  | bool (b : Bool)
  | none
  | list (xs : List PyVal)
  | dict (kvs : List (String × PyVal))

/-- `len`/`enumerate` over a parsed JSON value: lists, dicts and strings
are iterable (with this length); numbers and booleans raise `TypeError`. -/
def pyIterLen : PyVal → Except String Nat
  | .list xs => .ok xs.length
  | .dict kvs => .ok kvs.length
  | .str s => .ok s.length
  | _ => .error "TypeError: object is not iterable"

/-- The fallback dictionary of `process_task_parsing` (title truncated to
50 characters, confidence 0.1). -/
def parsingFallback (text : String) : List (String × PyVal) :=
  [("title", .str (if text.length > 50 then ⟨text.data.take 50⟩ ++ "..." else text)),
   ("description", .str text),
   ("priority", .str "medium"),
   ("estimated_hours", .rat 1),
   ("tags", .list [.str "error"]),
   ("confidence", .rat q0x1),
   ("category", .none)]

/-- `ModelManager.process_task_parsing`: delegates to the task parser;
any exception yields the fallback dictionary. -/
def process_task_parsing
    (analyzer : String → Except String (List (String × PyVal)))
    (text : String) : Except String PyVal :=
  match analyzer text with
  | .ok d => .ok (.dict d)
  | .error _ => .ok (.dict (parsingFallback text))

/-- One entry of the prioritization fallback list (index `i`). -/
def priFallbackEntry (i : Nat) : PyVal :=
  .dict [("task_id", .str (toString i)),
         ("priority_score", .rat q0x5),
         ("urgency", .str "medium"),
         ("importance", .str "medium"),
         ("reasoning", .str "Fallback prioritization due to error"),
         ("factors", .list [.str "error"]),
         ("confidence", .rat q0x1)]

/-- The prioritization fallback built from the re-parsed task list
(confidence 0.1). -/
def priFallback (n : Nat) : List (String × PyVal) :=
  [("prioritized_tasks", .list ((List.range n).map priFallbackEntry)),
   ("reasoning", .str "Prioritization failed, using fallback ordering"),
   ("confidence", .rat q0x1),
   ("factors_considered", .list [.str "error"]),
   ("total_tasks", .int n),
   ("processing_time_ms", .rat 0)]

/-- The prioritization fallback when even re-parsing the input fails
(confidence 0.0). -/
def priEmptyFallback : List (String × PyVal) :=
  [("prioritized_tasks", .list []),
   ("reasoning", .str "Failed to parse tasks"),
   ("confidence", .rat 0),
   ("factors_considered", .list [.str "error"]),
   ("total_tasks", .int 0),
   ("processing_time_ms", .rat 0)]

/-- `ModelManager.process_task_prioritization`: parses the JSON input,
delegates to the prioritizer; on any exception re-parses the input and
builds the per-task fallback, and if that in turn fails (unparseable JSON
or non-iterable value) returns the empty fallback.  `loads` is
deterministic, so the re-parse in the handler returns the same value. -/
def process_task_prioritization (loads : String → Except String PyVal)
    (analyzer : PyVal → Except String (List (String × PyVal)))
    (tasks_json : String) : Except String PyVal :=
  match (do
          let tasks ← loads tasks_json
          let d ← analyzer tasks
          pure d : Except String (List (String × PyVal))) with
  | .ok d => .ok (.dict d)
  | .error _ =>
      match (do
              let tasks ← loads tasks_json
              let n ← pyIterLen tasks
              pure n : Except String Nat) with
      | .ok n => .ok (.dict (priFallback n))
      | .error _ => .ok (.dict priEmptyFallback)

/-- The insights fallback dictionary (confidence 0.3, the error message
interpolated into `data_quality`). -/
def insightsFallback (e : String) : List (String × PyVal) :=
  [("insights", .list
      [.str "Focus on completing one task at a time to build momentum",
       .str "Break large tasks into smaller, manageable pieces",
       .str "Set specific time blocks for different types of work"]),
   ("recommendations", .list
      [.str "Track your tasks consistently to enable better insights",
       .str "Note completion times to improve future planning",
       .str "Categorize tasks to identify patterns over time"]),
   ("patterns", .dict
      [("total_patterns", .int 0),
       ("pattern_types", .list []),
       ("strongest_pattern", .none),
       ("average_confidence", .rat 0)]),
   ("confidence", .rat q0x3),
   ("analysis_period", .str "Unknown"),
   ("data_quality", .str ("Analysis failed: " ++ e)),
   ("detailed_insights", .list []),
   ("detected_patterns", .list [])]

/-- `ModelManager.process_insights_generation`: parses the JSON input,
delegates to the insight generator; any exception (including an
unparseable input) yields the fallback dictionary. -/
def process_insights_generation (loads : String → Except String PyVal)
    (analyzer : PyVal → Except String (List (String × PyVal)))
    (data_json : String) : Except String PyVal :=
  match (do
          let task_data ← loads data_json
          let d ← analyzer task_data
          pure d : Except String (List (String × PyVal))) with
  | .ok d => .ok (.dict d)
  | .error e => .ok (.dict (insightsFallback e))

/-! ## `config_loader.py`: `ModelConfigLoader`

The declarative configuration document is modeled in its parsed, well-shaped
form (nested dictionaries); `Option` fields model absent keys.  The claims
quantify over declared versions, i.e. over documents of this shape. -/

/-- One version block of the configuration document. -/
structure VersionDef where
  model_source : Option String
  description : Option String
  memory_requirement_mb : Option Int
  config : Option (List (String × ConfigVal))
deriving DecidableEq, Repr

/-- One named model block of the configuration document. -/
structure ModelDef where
  versions : Option (List (String × VersionDef))
  default_version : Option String
deriving DecidableEq, Repr

/-- The loaded configuration document (`self.config_data`):
`model_definitions` maps a type string to named model blocks;
`extra_keys` records any other top-level keys (their values are irrelevant
to the modeled operations) so that dictionary truthiness is exact. -/
structure ConfigDoc where
  model_definitions : Option (List (String × List (String × ModelDef)))
  global_config : Option (List (String × ConfigVal))
  extra_keys : List String
deriving DecidableEq, Repr

/-- `not self.config_data`: the loaded document is the empty dictionary. -/
def configFalsy (doc : ConfigDoc) : Bool :=
  doc.model_definitions.isNone && doc.global_config.isNone && doc.extra_keys.isEmpty

/-- Serialized bytes of the mock model document `_create_mock_model`
writes; the exact JSON formatting is immaterial to every claim (only the
content's identity, length and hash are ever used). -/
def mockModelBytes (t : ModelType) (name version : String) : List Nat :=
  ("\x7b\"type\": \"mock_model\", \"name\": \"" ++ name ++ "\", \"version\": \"" ++
    version ++ "\", \"model_type\": \"" ++ t.value ++
    "\", \"created_at\": \"2024-01-01T00:00:00\"\x7d").data.map Char.toNat

/-- `ModelConfigLoader._create_mock_model`: writes the placeholder artifact
file, builds metadata from it (`create_model_metadata` hashes the fresh
file) and registers it; a metadata construction failure yields `False`. -/
def create_mock_model (hash : List Nat → String) (vm : VMState) (t : ModelType)
    (name version : String) (vdef : VersionDef) (now : Nat) : VMState × Bool :=
  let mock_file := modelDirPath vm.models_base_path t name version ++ "/model.json"
  let content := mockModelBytes t name version
  let vm1 := { vm with fileBytes := dictSet mock_file content vm.fileBytes }
  match create_model_metadata hash vm1.fileBytes name version t mock_file
      (vdef.model_source.getD "mock")
      (vdef.memory_requirement_mb.getD 128)
      (some (vdef.description.getD ("Mock " ++ t.value ++ " model")))
      none (vdef.config.getD []) now with
  | .error _ => (vm1, false)
  | .ok md => register_model vm1 md

/-- The body of the innermost loop of `initialize_models_from_config` for
one declared `(type, name, version)`: skip (result `True`) if the metadata
resolves, create and register a mock artifact if `model_source == "mock"`,
otherwise record `False`.  The per-item `except` branch is unreachable in
the model since no step raises. -/
def initVersionStep (hash : List Nat → String) (now : Nat) (tstr : String)
    (t : ModelType) (model_name : String)
    (acc : VMState × List (String × Bool)) (vv : String × VersionDef) :
    VMState × List (String × Bool) :=
  let key := tstr ++ ":" ++ model_name ++ ":" ++ vv.1
  match get_model_metadata acc.1 t model_name vv.1 with
  | (vm1, some _) => (vm1, dictSet key true acc.2)
  | (vm1, none) =>
      if vv.2.model_source = some "mock" then
        let r := create_mock_model hash vm1 t model_name vv.1 vv.2 now
        (r.1, dictSet key r.2 acc.2)
      else (vm1, dictSet key false acc.2)

/-- The middle loop: all declared versions of one named model. -/
def initNameStep (hash : List Nat → String) (now : Nat) (tstr : String)
    (t : ModelType) (acc : VMState × List (String × Bool))
    (nm : String × ModelDef) : VMState × List (String × Bool) :=
  (nm.2.versions.getD []).foldl (initVersionStep hash now tstr t nm.1) acc

/-- The outer loop: one declared type block; an unrecognized type string is
skipped (`continue`). -/
def initTypeStep (hash : List Nat → String) (now : Nat)
    (acc : VMState × List (String × Bool))
    (tm : String × List (String × ModelDef)) : VMState × List (String × Bool) :=
  match modelTypeOfString tm.1 with
  | none => acc
  | some t => tm.2.foldl (initNameStep hash now tm.1 t) acc

/-- `ModelConfigLoader.initialize_models_from_config`: reconcile every
declared version into the version manager, producing the per-key result
dictionary. -/
def initialize_models_from_config (hash : List Nat → String) (doc : ConfigDoc)
    (vm : VMState) (now : Nat) : VMState × List (String × Bool) :=
  (doc.model_definitions.getD []).foldl (initTypeStep hash now) (vm, [])

/-- `validate_config`, innermost checks: each version entry must carry
`model_source` and `memory_requirement_mb`. -/
def validateVersionEntry (tstr name : String) (errors : List String)
    (vv : String × VersionDef) : List String :=
  let errors :=
    if vv.2.model_source = none then
      errors ++ ["Missing model_source for " ++ tstr ++ "/" ++ name ++ ":" ++ vv.1]
    else errors
  if vv.2.memory_requirement_mb = none then
    errors ++ ["Missing memory_requirement_mb for " ++ tstr ++ "/" ++ name ++ ":" ++ vv.1]
  else errors

/-- `validate_config`, per named model: a `versions` map is required
(`continue` on absence); a missing `default_version` key and a truthy
(non-empty) `default_version` that is not a key of `versions` are each
reported; then every version entry is checked. -/
def validateNameEntry (tstr : String) (errors : List String)
    (nm : String × ModelDef) : List String :=
  match nm.2.versions with
  | none => errors ++ ["Missing versions for " ++ tstr ++ "/" ++ nm.1]
  | some vs =>
      let errors :=
        if nm.2.default_version = none then
          errors ++ ["Missing default_version for " ++ tstr ++ "/" ++ nm.1]
        else errors
      let errors :=
        match nm.2.default_version with
        | some dv =>
            if dv ≠ "" ∧ dictGet dv vs = none then
              errors ++ ["Default version \x27" ++ dv ++
                "\x27 not found in versions for " ++ tstr ++ "/" ++ nm.1]
            else errors
        | none => errors
      vs.foldl (validateVersionEntry tstr nm.1) errors

/-- `validate_config`, per declared type: an unrecognized type string is
reported and its models are skipped (`continue`). -/
def validateTypeEntry (errors : List String)
    (tm : String × List (String × ModelDef)) : List String :=
  match modelTypeOfString tm.1 with
  | none => errors ++ ["Invalid model type: " ++ tm.1]
  | some _ => tm.2.foldl (validateNameEntry tm.1) errors

/-- `ModelConfigLoader.validate_config`: accumulates human-readable error
strings and never raises; an empty document and a document without the
`model_definitions` section short-circuit with a single error. -/
def validate_config (doc : ConfigDoc) : List String :=
  if configFalsy doc then ["No configuration data loaded"]
  else
    match doc.model_definitions with
    | none => ["Missing \x27model_definitions\x27 section"]
    | some defs => defs.foldl validateTypeEntry []

/-! ## Concrete fixtures used by witnesses and counterexamples -/

/-- A 64-character placeholder digest. -/
def hash64 : String := "zzzzzzzzzzzzzzzzzzzzzzzzzzzzzzzzzzzzzzzzzzzzzzzzzzzzzzzzzzzzzzzz"

/-- A hash function stand-in whose output always has the SHA-256 hex digest
length. -/
def constHash : List Nat → String := fun _ => hash64

/-- Concrete registered task-parser metadata for `default:v1`. -/
def mdC9 : ModelMetadata :=
  { name := "default", version := "v1", model_type := ModelType.taskParser,
    description := Option.none, file_path := "models/task_parser/default/v1/model.json",
    file_size_bytes := 0, file_hash := hash64, model_source := "mock",
    model_id := Option.none, memory_requirement_mb := 128,
    inference_time_ms := Option.none, accuracy_score := Option.none,
    created_at := 0, updated_at := 0, status := ModelStatus.available,
    dependencies := [], python_version := Option.none,
    framework_version := Option.none, config := [] }

/-- A concrete runtime config for `default:v1`. -/
def cfgFixture : ModelConfig := defaultModelConfig ModelType.taskParser "default" "v1"

/-- A concrete in-memory loaded record for `default:v1`. -/
def lmFixture : LoadedModel :=
  { name := "default", version := "v1", mtype := "task_parser", loaded_at := 3,
    metadata := mdC9, config := cfgFixture, status := "loaded" }

/-- A manager state in which `task_parser:default:v1` is already loaded. -/
def mmLoaded : MMState :=
  { vm := (register_model (initVMState "models") mdC9).1,
    loaded_models := [("task_parser:default:v1", lmFixture)],
    model_configs := [("task_parser:default:v1", cfgFixture)],
    load_times := [("task_parser:default:v1", 3)],
    inference_stats := [], metrics_active_models := 1,
    metrics_model_memory := [("task_parser:v1", 134217728)] }

/-- Registered metadata whose recorded size (1 byte) will disagree with the
mutated artifact file. -/
def mdC2 : ModelMetadata :=
  { mdC9 with
      file_path := "models/task_parser/default/v1/model.json",
      file_size_bytes := 1,
      file_hash := constHash [0] }

/-- A version-manager state where `default:v1` was registered with recorded
size 1 and the artifact file was afterwards mutated to 2 bytes. -/
def vmC2 : VMState :=
  { (register_model (initVMState "models") mdC2).1 with
    fileBytes := [("models/task_parser/default/v1/model.json", [0, 1])] }

/-- A fresh manager over `vmC2` (nothing loaded). -/
def mmC2 : MMState :=
  { vm := vmC2, loaded_models := [], model_configs := [], load_times := [],
    inference_stats := [], metrics_active_models := 0, metrics_model_memory := [] }

/-- Registered metadata whose artifact file is intact but whose stored
`config` carries an out-of-range temperature, so that building the runtime
configuration fails. -/
def mdC3 : ModelMetadata :=
  { mdC9 with
      file_path := "models/task_parser/default/v1/model.json",
      file_size_bytes := 1,
      file_hash := constHash [7],
      config := [("temperature", ConfigVal.rat 3)] }

/-- A version-manager state where `default:v1` is registered, its file is
intact, and its stored config is invalid. -/
def vmC3 : VMState :=
  { (register_model (initVMState "models") mdC3).1 with
    fileBytes := [("models/task_parser/default/v1/model.json", [7])] }

/-- A fresh manager over `vmC3` (nothing loaded). -/
def mmC3 : MMState :=
  { vm := vmC3, loaded_models := [], model_configs := [], load_times := [],
    inference_stats := [], metrics_active_models := 0, metrics_model_memory := [] }

/-- Metadata for `default:<v>` of the task-parser type. -/
def mdV (v : String) : ModelMetadata := { mdC9 with version := v }

/-- Three versions of `default` registered in the order v1, v10, v2. -/
def msC1 : List ModelMetadata := [mdV "v1", mdV "v10", mdV "v2"]

/-- Metadata registered under a name that itself contains a colon. -/
def mdColon : ModelMetadata := { mdC9 with name := "a:b" }

/-- A complete mock version block. -/
def vdefMock : VersionDef :=
  { model_source := some "mock", description := Option.none,
    memory_requirement_mb := some 128, config := Option.none }

/-- A configuration document whose one model has the empty string as its
`default_version` — a falsy value, so the default-not-found check is
skipped. -/
def docC8empty : ConfigDoc :=
  { model_definitions := some
      [("task_parser",
        [("default",
          { versions := some [("v1", vdefMock)], default_version := some "" })])],
    global_config := Option.none, extra_keys := [] }

/-- A model block declaring `default_version` `"v2"` while only `"v1"`
exists. -/
def mdefC8w : ModelDef :=
  { versions := some [("v1", vdefMock)], default_version := some "v2" }

/-- A configuration document containing `mdefC8w`. -/
def docC8w : ConfigDoc :=
  { model_definitions := some [("task_parser", [("default", mdefC8w)])],
    global_config := Option.none, extra_keys := [] }

/-- A document with no `model_definitions` section (but not empty). -/
def docC8missing : ConfigDoc :=
  { model_definitions := Option.none,
    global_config := some [("cache_enabled", ConfigVal.bool true)],
    extra_keys := [] }

/-! ### Flattened view of the declared versions (proof infrastructure for
reconciliation): `initialize_models_from_config` processes, in order, one
item per declared `(type string, type, name, version, version block)` whose
type string parses. -/

/-- One declared version as the reconciliation loop visits it. -/
structure DeclItem where
  tstr : String
  t : ModelType
  name : String
  version : String
  vdef : VersionDef
deriving DecidableEq, Repr

/-- Builds the item for one entry of a `versions` map. -/
def mkDeclItem (tstr : String) (t : ModelType) (name : String)
    (vv : String × VersionDef) : DeclItem :=
  ⟨tstr, t, name, vv.1, vv.2⟩

/-- All declared items of a document, in processing order. -/
def declItems (doc : ConfigDoc) : List DeclItem :=
  (doc.model_definitions.getD []).flatMap (fun tm =>
    match modelTypeOfString tm.1 with
    | none => []
    | some t => tm.2.flatMap (fun nm =>
        (nm.2.versions.getD []).map (mkDeclItem tm.1 t nm.1)))

/-- The loop body, reindexed by a flattened item. -/
def itemStep (hash : List Nat → String) (now : Nat)
    (acc : VMState × List (String × Bool)) (it : DeclItem) :
    VMState × List (String × Bool) :=
  initVersionStep hash now it.tstr it.t it.name acc (it.version, it.vdef)

/-- The metadata-cache key of an item. -/
def itemNvKey (it : DeclItem) : String := it.name ++ ":" ++ it.version

/-- The result-dictionary key of an item. -/
def itemResKey (it : DeclItem) : String :=
  it.tstr ++ ":" ++ it.name ++ ":" ++ it.version

/-- The `metadata.json` path of an item. -/
def itemMetaPath (base : String) (it : DeclItem) : String :=
  metadataFilePath base it.t it.name it.version

/-- The placeholder-file path of an item. -/
def itemMockPath (base : String) (it : DeclItem) : String :=
  modelDirPath base it.t it.name it.version ++ "/model.json"

/-- Both on-disk paths an item may touch. -/
def itemPaths (base : String) (it : DeclItem) : List String :=
  [itemMetaPath base it, itemMockPath base it]

/-- A document declaring the same `default:v1` as a mock artifact for TWO
different model types (the cross-type cache-collision scenario). -/
def docC7x : ConfigDoc :=
  { model_definitions := some
      [("task_parser",
        [("default",
          { versions := some [("v1", vdefMock)], default_version := some "v1" })]),
       ("prioritizer",
        [("default",
          { versions := some [("v1", vdefMock)], default_version := some "v1" })])],
    global_config := Option.none, extra_keys := [] }

/-- The single declared item of `docC7w`. -/
def itC7 : DeclItem :=
  ⟨"task_parser", ModelType.taskParser, "default", "v1", vdefMock⟩

/-- A document declaring a single mock parser artifact `default:v1`. -/
def docC7w : ConfigDoc :=
  { model_definitions := some
      [("task_parser",
        [("default",
          { versions := some [("v1", vdefMock)], default_version := some "v1" })])],
    global_config := Option.none, extra_keys := [] }

/-! ## Dictionary and string-order lemmas -/

theorem dictGet_dictSet_self {α : Type} (k : String) (v : α) (d : List (String × α)) :
    dictGet k (dictSet k v d) = some v := by
  induction d with
  | nil => simp [dictGet, dictSet]
  | cons hd tl ih =>
    obtain ⟨k1, v1⟩ := hd
    by_cases h : k1 = k
    · simp [dictGet, dictSet, h]
    · simp [dictGet, dictSet, h, ih]

theorem dictGet_dictSet_ne {α : Type} (k k2 : String) (v : α) (d : List (String × α))
    (h : k2 ≠ k) : dictGet k2 (dictSet k v d) = dictGet k2 d := by
  have hne : ¬ k = k2 := fun hh => h hh.symm
  induction d with
  | nil => simp [dictGet, dictSet, hne]
  | cons hd tl ih =>
    obtain ⟨k1, v1⟩ := hd
    by_cases h1 : k1 = k
    · subst h1
      simp [dictGet, dictSet, hne]
    · simp only [dictSet, if_neg h1, dictGet]
      by_cases h2 : k1 = k2 <;> simp [h1, h2, ih]

/-- Setting an absent key appends the new entry at the end
(Python dict insertion order). -/
theorem dictSet_append_of_get_none {α : Type} (k : String) (v : α)
    (d : List (String × α)) (h : dictGet k d = none) :
    dictSet k v d = d ++ [(k, v)] := by
  induction d with
  | nil => simp [dictSet]
  | cons hd tl ih =>
    obtain ⟨k1, v1⟩ := hd
    by_cases h1 : k1 = k
    · simp [dictGet, h1] at h
    · simp only [dictGet, if_neg h1] at h
      simp [dictSet, h1, ih h]

theorem codesLe_total (a b : List Nat) : codesLe a b = true ∨ codesLe b a = true := by
  induction a generalizing b with
  | nil => left; rfl
  | cons x xs ih =>
    cases b with
    | nil => right; rfl
    | cons y ys =>
      rcases Nat.lt_trichotomy x y with h | h | h
      · left; simp [codesLe, h]
      · subst h
        rcases ih ys with h2 | h2
        · left; simp [codesLe, h2]
        · right; simp [codesLe, h2]
      · right; simp [codesLe, h, Nat.lt_asymm h]

theorem codesLe_trans {a b c : List Nat} (hab : codesLe a b = true)
    (hbc : codesLe b c = true) : codesLe a c = true := by
  induction a generalizing b c with
  | nil => rfl
  | cons x xs ih =>
    cases b with
    | nil => simp [codesLe] at hab
    | cons y ys =>
      cases c with
      | nil => simp [codesLe] at hbc
      | cons z zs =>
        simp only [codesLe] at hab hbc ⊢
        by_cases hxy : x < y
        · by_cases hyz : y < z
          · simp [Nat.lt_trans hxy hyz]
          · by_cases hzy : z < y
            · simp [codesLe, hyz, hzy] at hbc
            · have : y = z := Nat.le_antisymm (Nat.le_of_not_lt hzy) (Nat.le_of_not_lt hyz)
              subst this
              simp [hxy]
        · by_cases hyx : y < x
          · simp [codesLe, hxy, hyx] at hab
          · have hexy : x = y := Nat.le_antisymm (Nat.le_of_not_lt hyx) (Nat.le_of_not_lt hxy)
            subst hexy
            simp only [if_neg hxy, Nat.lt_irrefl, if_neg] at hab ⊢
            by_cases hyz : x < z
            · simp [hyz]
            · by_cases hzy : z < x
              · simp [codesLe, hyz, hzy] at hbc
              · have : x = z := Nat.le_antisymm (Nat.le_of_not_lt hzy) (Nat.le_of_not_lt hyz)
                subst this
                simp only [Nat.lt_irrefl, if_neg] at hbc ⊢
                exact ih hab hbc

theorem codesLe_antisymm {a b : List Nat} (hab : codesLe a b = true)
    (hba : codesLe b a = true) : a = b := by
  induction a generalizing b with
  | nil =>
    cases b with
    | nil => rfl
    | cons y ys => simp [codesLe] at hba
  | cons x xs ih =>
    cases b with
    | nil => simp [codesLe] at hab
    | cons y ys =>
      simp only [codesLe] at hab hba
      by_cases hxy : x < y
      · simp [Nat.lt_asymm hxy, Nat.ne_of_lt hxy, hxy] at hba
      · by_cases hyx : y < x
        · simp [hxy, hyx] at hab
        · have hexy : x = y := Nat.le_antisymm (Nat.le_of_not_lt hyx) (Nat.le_of_not_lt hxy)
          subst hexy
          simp only [Nat.lt_irrefl, if_neg] at hab hba
          rw [ih hab hba]

theorem charsNat_inj {a b : List Char} (h : a.map Char.toNat = b.map Char.toNat) :
    a = b := by
  induction a generalizing b with
  | nil => cases b <;> simp_all
  | cons x xs ih =>
    cases b with
    | nil => simp at h
    | cons y ys =>
      simp only [List.map_cons, List.cons.injEq] at h
      have hx : x = y := Char.ext (UInt32.ext h.1)
      exact hx ▸ congrArg (x :: ·) (ih h.2)

instance : IsTotal String pyGe :=
  ⟨fun a b => (codesLe_total (b.data.map Char.toNat) (a.data.map Char.toNat)).imp id id⟩

instance : IsTrans String pyGe :=
  ⟨fun _ _ _ hab hbc => codesLe_trans hbc hab⟩

instance : IsAntisymm String pyGe :=
  ⟨fun _ _ hab hba => String.ext (charsNat_inj (codesLe_antisymm hba hab))⟩

/-! ## Basic lemmas about `get_model_metadata` -/

/-- `get_model_metadata` only ever touches the metadata cache: base path,
registries, metadata files and artifact files are unchanged. -/
theorem get_model_metadata_frame (s : VMState) (t : ModelType) (name version : String) :
    ((get_model_metadata s t name version).1).models_base_path = s.models_base_path ∧
    ((get_model_metadata s t name version).1).registries = s.registries ∧
    ((get_model_metadata s t name version).1).metadataFiles = s.metadataFiles ∧
    ((get_model_metadata s t name version).1).fileBytes = s.fileBytes := by
  unfold get_model_metadata
  cases dictGet (name ++ ":" ++ version) s.metadataCache with
  | some m => exact ⟨rfl, rfl, rfl, rfl⟩
  | none =>
      cases dictGet (metadataFilePath s.models_base_path t name version) s.metadataFiles with
      | none => exact ⟨rfl, rfl, rfl, rfl⟩
      | some m => exact ⟨rfl, rfl, rfl, rfl⟩

/-- A cache hit answers immediately, for ANY requested model type, without
touching the state. -/
theorem get_model_metadata_cache_hit (s : VMState) (t : ModelType)
    (name version : String) (md : ModelMetadata)
    (h : dictGet (name ++ ":" ++ version) s.metadataCache = some md) :
    get_model_metadata s t name version = (s, some md) := by
  unfold get_model_metadata
  rw [h]

/-- After a successful lookup the cache holds the returned metadata. -/
theorem get_model_metadata_caches (s : VMState) (t : ModelType)
    (name version : String) (md : ModelMetadata)
    (h : (get_model_metadata s t name version).2 = some md) :
    dictGet (name ++ ":" ++ version)
      ((get_model_metadata s t name version).1).metadataCache = some md := by
  unfold get_model_metadata at h ⊢
  cases hc : dictGet (name ++ ":" ++ version) s.metadataCache with
  | some m =>
      simp only [hc] at h ⊢
      simp at h
      rw [h]
  | none =>
      simp only [hc] at h ⊢
      cases hf : dictGet (metadataFilePath s.models_base_path t name version) s.metadataFiles with
      | none => simp [hf] at h
      | some m =>
          simp only [hf] at h ⊢
          simp at h
          subst h
          simpa using dictGet_dictSet_self (name ++ ":" ++ version) m s.metadataCache

/-- A successful lookup is idempotent: re-querying the resulting state (with
any model type) returns the same metadata and leaves the state unchanged. -/
theorem get_model_metadata_idem (s : VMState) (t t2 : ModelType)
    (name version : String) (md : ModelMetadata)
    (h : (get_model_metadata s t name version).2 = some md) :
    get_model_metadata ((get_model_metadata s t name version).1) t2 name version
      = ((get_model_metadata s t name version).1, some md) :=
  get_model_metadata_cache_hit _ _ _ _ _ (get_model_metadata_caches s t name version md h)

/-! ## C10 — `ModelMetadata` accepts a `file_hash` exactly when its length is 64 -/

/-- C10: `ModelMetadata` construction (with a valid `accuracy_score`)
succeeds for ANY 64-character `file_hash` regardless of content, and raises
the hash validation error for any `file_hash` of a different length. -/
theorem mkModelMetadata_file_hash_length_only (name version : String)
    (model_type : ModelType) (description : Option String) (file_path : String)
    (file_size_bytes : Nat) (file_hash : String) (model_source : String)
    (model_id : Option String) (memory_requirement_mb : Int)
    (inference_time_ms : Option Int) (accuracy_score : Option ℚ)
    (created_at updated_at : Nat) (status : ModelStatus)
    (dependencies : List String) (python_version framework_version : Option String)
    (config : List (String × ConfigVal))
    (hacc : validate_accuracy_score accuracy_score = .ok accuracy_score) :
    (file_hash.length = 64 →
      mkModelMetadata name version model_type description file_path
        file_size_bytes file_hash model_source model_id memory_requirement_mb
        inference_time_ms accuracy_score created_at updated_at status
        dependencies python_version framework_version config =
      .ok { name := name, version := version, model_type := model_type,
            description := description, file_path := file_path,
            file_size_bytes := file_size_bytes, file_hash := file_hash,
            model_source := model_source, model_id := model_id,
            memory_requirement_mb := memory_requirement_mb,
            inference_time_ms := inference_time_ms,
            accuracy_score := accuracy_score, created_at := created_at,
            updated_at := updated_at, status := status,
            dependencies := dependencies, python_version := python_version,
            framework_version := framework_version, config := config }) ∧
    (file_hash.length ≠ 64 →
      mkModelMetadata name version model_type description file_path
        file_size_bytes file_hash model_source model_id memory_requirement_mb
        inference_time_ms accuracy_score created_at updated_at status
        dependencies python_version framework_version config =
      .error "File hash must be a valid SHA-256 hash") := by
  constructor
  · intro h64
    simp [mkModelMetadata, validate_file_hash, h64, hacc, Except.bind, bind, pure, Except.pure]
  · intro hne
    simp [mkModelMetadata, validate_file_hash, hne, Except.bind, bind, pure, Except.pure]

/-- C10 witness: a string of 64 `z` characters (not a hex digest) is
accepted; a 63-character string is rejected. -/
theorem mkModelMetadata_file_hash_length_only_witness :
    mkModelMetadata "default" "v1" ModelType.taskParser Option.none "f" 0
        "zzzzzzzzzzzzzzzzzzzzzzzzzzzzzzzzzzzzzzzzzzzzzzzzzzzzzzzzzzzzzzzz"
        "local" Option.none 128 Option.none Option.none 0 0 ModelStatus.available
        [] Option.none Option.none [] =
      .ok { name := "default", version := "v1", model_type := ModelType.taskParser,
            description := Option.none, file_path := "f", file_size_bytes := 0,
            file_hash := "zzzzzzzzzzzzzzzzzzzzzzzzzzzzzzzzzzzzzzzzzzzzzzzzzzzzzzzzzzzzzzzz",
            model_source := "local", model_id := Option.none,
            memory_requirement_mb := 128, inference_time_ms := Option.none,
            accuracy_score := Option.none, created_at := 0, updated_at := 0,
            status := ModelStatus.available, dependencies := [],
            python_version := Option.none, framework_version := Option.none,
            config := [] } ∧
    mkModelMetadata "default" "v1" ModelType.taskParser Option.none "f" 0
        "zzzzzzzzzzzzzzzzzzzzzzzzzzzzzzzzzzzzzzzzzzzzzzzzzzzzzzzzzzzzzzz"
        "local" Option.none 128 Option.none Option.none 0 0 ModelStatus.available
        [] Option.none Option.none [] =
      .error "File hash must be a valid SHA-256 hash" := by
  refine ⟨(mkModelMetadata_file_hash_length_only "default" "v1" ModelType.taskParser
      Option.none "f" 0 _ "local" Option.none 128 Option.none Option.none 0 0
      ModelStatus.available [] Option.none Option.none [] rfl).1 (by decide),
    (mkModelMetadata_file_hash_length_only "default" "v1" ModelType.taskParser
      Option.none "f" 0 _ "local" Option.none 128 Option.none Option.none 0 0
      ModelStatus.available [] Option.none Option.none [] rfl).2 (by decide)⟩

/-! ## C9 — the metadata cache is keyed by `"name:version"` only -/

/-- C9: after registering metadata of type T1, a metadata query for the SAME
name and version but a DIFFERENT type T2 is answered from the cache with the
T1 metadata, even though no metadata file for (T2, name, version) exists. -/
theorem get_model_metadata_cache_ignores_type (s : VMState) (md : ModelMetadata)
    (t2 : ModelType) (_hne : md.model_type ≠ t2)
    (_hdisk : dictGet
        (metadataFilePath ((register_model s md).1).models_base_path t2 md.name md.version)
        ((register_model s md).1).metadataFiles = none) :
    (register_model s md).2 = true ∧
    (get_model_metadata ((register_model s md).1) t2 md.name md.version).2 = some md ∧
    ((get_model_metadata ((register_model s md).1) t2 md.name md.version).2).map
        ModelMetadata.model_type = some md.model_type := by
  have hcache : dictGet (md.name ++ ":" ++ md.version)
      ((register_model s md).1).metadataCache = some md := by
    unfold register_model
    simpa using dictGet_dictSet_self (md.name ++ ":" ++ md.version) md s.metadataCache
  have hget := get_model_metadata_cache_hit _ t2 _ _ _ hcache
  refine ⟨rfl, ?_, ?_⟩
  · rw [hget]
  · rw [hget]; rfl

/-- C9 witness: register a `task_parser` artifact `default:v1`, then query
the `prioritizer` type for `default:v1`: the cached task-parser metadata is
returned although no prioritizer metadata file exists. -/
theorem get_model_metadata_cache_ignores_type_witness :
    (get_model_metadata
        ((register_model (initVMState "models") mdC9).1)
        ModelType.prioritizer "default" "v1").2 = some mdC9 :=
  ((get_model_metadata_cache_ignores_type (initVMState "models") mdC9
      ModelType.prioritizer (by decide) (by rfl)).2).1

/-! ## C4 — `load_model` is idempotent on an already-loaded key -/

/-- C4: when `"type:name:version"` is already a key of the loaded-models
table, `load_model` returns `True` with the ENTIRE manager state unchanged —
in particular no metadata fetch, no integrity validation, no change to the
loaded-models or load-times tables and no persisted status update occur. -/
theorem load_model_already_loaded_noop (hash : List Nat → String) (s : MMState)
    (t : ModelType) (name version : String) (now : Nat) (m : LoadedModel)
    (h : dictGet (get_model_key t name version) s.loaded_models = some m) :
    load_model hash s t name (some version) now = (s, true) := by
  simp [load_model, dictMem, h]

/-- C4 witness: a manager with `task_parser:default:v1` loaded. -/
theorem load_model_already_loaded_noop_witness :
    load_model constHash mmLoaded ModelType.taskParser "default" (some "v1") 7
      = (mmLoaded, true) :=
  load_model_already_loaded_noop constHash mmLoaded ModelType.taskParser
    "default" "v1" 7 lmFixture rfl

/-! ## C5 — `validate_model_integrity` checks in order and reports the first failure -/

/-- C5: the integrity check tests, in order: metadata presence, file
existence, size equality against `file_size_bytes`, hash equality against
`file_hash`; it returns `(False, message)` for the FIRST failing condition
with the message describing that condition, and `(True, success)` when all
hold.  The function is total (never raises): it returns one of these five
results for every input state. -/
theorem validate_model_integrity_ordered (hash : List Nat → String)
    (s : VMState) (t : ModelType) (name version : String) :
    ((get_model_metadata s t name version).2 = none →
      (validate_model_integrity hash s t name version).2 =
        (false, "Model metadata not found")) ∧
    (∀ md, (get_model_metadata s t name version).2 = some md →
      (dictGet md.file_path s.fileBytes = none →
        (validate_model_integrity hash s t name version).2 =
          (false, "Model file not found: " ++ md.file_path)) ∧
      (∀ content, dictGet md.file_path s.fileBytes = some content →
        (content.length ≠ md.file_size_bytes →
          (validate_model_integrity hash s t name version).2 =
            (false, "File size mismatch: expected " ++ toString md.file_size_bytes ++
              ", got " ++ toString content.length)) ∧
        (content.length = md.file_size_bytes → hash content ≠ md.file_hash →
          (validate_model_integrity hash s t name version).2 =
            (false, "File hash mismatch: expected " ++ md.file_hash ++
              ", got " ++ hash content)) ∧
        (content.length = md.file_size_bytes → hash content = md.file_hash →
          (validate_model_integrity hash s t name version).2 =
            (true, "Model integrity validated")))) := by
  have hframe := (get_model_metadata_frame s t name version).2.2.2
  rcases hE : get_model_metadata s t name version with ⟨s1, o⟩
  rw [hE] at hframe
  simp only at hframe
  refine ⟨?_, ?_⟩
  · intro hnone
    simp only at hnone
    subst hnone
    simp [validate_model_integrity, hE]
  · intro md hsome
    simp only at hsome
    subst hsome
    refine ⟨?_, ?_⟩
    · intro hfile
      rw [← hframe] at hfile
      simp [validate_model_integrity, hE, hfile]
    · intro content hcontent
      rw [← hframe] at hcontent
      refine ⟨?_, ?_, ?_⟩
      · intro hsize
        simp [validate_model_integrity, hE, hcontent, hsize]
      · intro hsize hhash
        simp [validate_model_integrity, hE, hcontent, hsize, hhash]
      · intro hsize hhash
        simp [validate_model_integrity, hE, hcontent, hsize, hhash]

/-- C5 witness: on an empty version manager the metadata is absent and the
check reports exactly the metadata-not-found reason. -/
theorem validate_model_integrity_ordered_witness :
    (validate_model_integrity constHash (initVMState "models")
      ModelType.taskParser "default" "v1").2 = (false, "Model metadata not found") :=
  (validate_model_integrity_ordered constHash (initVMState "models")
    ModelType.taskParser "default" "v1").1 rfl

/-! ## C6 — processing entry points never propagate an exception -/

/-- C6: for every behavior of the delegated analyzers and of `json.loads`
(including raising on any input) and for every input string, each of the
three processing entry points returns `.ok` with a structured dictionary —
never `.error` (a propagated exception).  When the parsing analyzer raises,
the parsing fallback (confidence 0.1) is returned; when the prioritization
input is unparseable (or re-parsing/iterating fails in the handler), the
empty prioritization fallback (confidence 0.0) is returned; when the
prioritizer raises on parsed input, the per-task fallback (confidence 0.1)
is returned; when insights generation fails at either step, the insights
fallback (confidence 0.3) is returned. -/
theorem processing_entry_points_never_raise
    (parseA : String → Except String (List (String × PyVal)))
    (loadsP : String → Except String PyVal)
    (priA : PyVal → Except String (List (String × PyVal)))
    (loadsI : String → Except String PyVal)
    (insA : PyVal → Except String (List (String × PyVal)))
    (text tasks_json data_json : String) :
    (∃ d, process_task_parsing parseA text = .ok (.dict d)) ∧
    (∀ e, parseA text = .error e →
      process_task_parsing parseA text = .ok (.dict (parsingFallback text)) ∧
      dictGet "confidence" (parsingFallback text) = some (.rat q0x1)) ∧
    (∃ d, process_task_prioritization loadsP priA tasks_json = .ok (.dict d)) ∧
    (∀ e, loadsP tasks_json = .error e →
      process_task_prioritization loadsP priA tasks_json = .ok (.dict priEmptyFallback) ∧
      dictGet "confidence" priEmptyFallback = some (.rat 0)) ∧
    (∀ tasks e n, loadsP tasks_json = .ok tasks → priA tasks = .error e →
      pyIterLen tasks = .ok n →
      process_task_prioritization loadsP priA tasks_json = .ok (.dict (priFallback n)) ∧
      dictGet "confidence" (priFallback n) = some (.rat q0x1)) ∧
    (∃ d, process_insights_generation loadsI insA data_json = .ok (.dict d)) ∧
    (∀ e, loadsI data_json = .error e →
      process_insights_generation loadsI insA data_json =
        .ok (.dict (insightsFallback e)) ∧
      dictGet "confidence" (insightsFallback e) = some (.rat q0x3)) ∧
    (∀ td e, loadsI data_json = .ok td → insA td = .error e →
      process_insights_generation loadsI insA data_json =
        .ok (.dict (insightsFallback e)) ∧
      dictGet "confidence" (insightsFallback e) = some (.rat q0x3)) := by
  refine ⟨?_, ?_, ?_, ?_, ?_, ?_, ?_, ?_⟩
  · cases hA : parseA text with
    | ok d => exact ⟨d, by simp [process_task_parsing, hA]⟩
    | error e => exact ⟨parsingFallback text, by simp [process_task_parsing, hA]⟩
  · intro e hA
    exact ⟨by simp [process_task_parsing, hA], by simp [dictGet]⟩
  · cases hL : loadsP tasks_json with
    | error e =>
        exact ⟨priEmptyFallback,
          by simp [process_task_prioritization, hL, Except.bind, bind, pure, Except.pure]⟩
    | ok tasks =>
        cases hA : priA tasks with
        | ok d =>
            exact ⟨d, by simp [process_task_prioritization, hL, hA, Except.bind, bind, pure, Except.pure]⟩
        | error e =>
            cases hI : pyIterLen tasks with
            | ok n =>
                exact ⟨priFallback n,
                  by simp [process_task_prioritization, hL, hA, hI, Except.bind, bind, pure, Except.pure]⟩
            | error e2 =>
                exact ⟨priEmptyFallback,
                  by simp [process_task_prioritization, hL, hA, hI, Except.bind, bind, pure, Except.pure]⟩
  · intro e hL
    exact ⟨by simp [process_task_prioritization, hL, Except.bind, bind, pure, Except.pure],
      by simp [priEmptyFallback, dictGet]⟩
  · intro tasks e n hL hA hI
    exact ⟨by simp [process_task_prioritization, hL, hA, hI, Except.bind, bind, pure, Except.pure],
      by simp [priFallback, dictGet]⟩
  · cases hL : loadsI data_json with
    | error e =>
        exact ⟨insightsFallback e,
          by simp [process_insights_generation, hL, Except.bind, bind, pure, Except.pure]⟩
    | ok td =>
        cases hA : insA td with
        | ok d =>
            exact ⟨d, by simp [process_insights_generation, hL, hA, Except.bind, bind, pure, Except.pure]⟩
        | error e =>
            exact ⟨insightsFallback e,
              by simp [process_insights_generation, hL, hA, Except.bind, bind, pure, Except.pure]⟩
  · intro e hL
    exact ⟨by simp [process_insights_generation, hL, Except.bind, bind, pure, Except.pure],
      by simp [insightsFallback, dictGet]⟩
  · intro td e hL hA
    exact ⟨by simp [process_insights_generation, hL, hA, Except.bind, bind, pure, Except.pure],
      by simp [insightsFallback, dictGet]⟩

/-- C6 witness: with analyzers that raise on every input and an input that
is not parseable JSON, all three entry points return their structured
fallback dictionaries. -/
theorem processing_entry_points_never_raise_witness :
    process_task_parsing (fun _ => .error "boom") "write tests" =
      .ok (.dict (parsingFallback "write tests")) ∧
    process_task_prioritization (fun _ => .error "Expecting value")
      (fun _ => .error "boom") "not json" = .ok (.dict priEmptyFallback) ∧
    process_insights_generation (fun _ => .error "Expecting value")
      (fun _ => .error "boom") "not json" = .ok (.dict (insightsFallback "Expecting value")) := by
  have h := processing_entry_points_never_raise (fun _ => .error "boom")
    (fun _ => .error "Expecting value") (fun _ => .error "boom")
    (fun _ => .error "Expecting value") (fun _ => .error "boom")
    "write tests" "not json" "not json"
  exact ⟨(h.2.1 "boom" rfl).1, (h.2.2.2.1 "Expecting value" rfl).1,
    (h.2.2.2.2.2.2.1 "Expecting value" rfl).1⟩

/-! ## Lemmas about `update_model_status` and integrity failure -/

/-- `update_model_status` on a state whose cache holds the metadata:
returns `True`, refreshes the cache with the status-updated metadata, and
leaves artifact file contents and the loaded-model-independent parts
untouched. -/
theorem update_model_status_cached (s : VMState) (t : ModelType)
    (name version : String) (md : ModelMetadata) (st : ModelStatus) (now : Nat)
    (h : dictGet (name ++ ":" ++ version) s.metadataCache = some md) :
    (update_model_status s t name version st now).2 = true ∧
    dictGet (name ++ ":" ++ version)
      ((update_model_status s t name version st now).1).metadataCache =
        some { md with status := st, updated_at := now } ∧
    ((update_model_status s t name version st now).1).fileBytes = s.fileBytes := by
  have hget := get_model_metadata_cache_hit s t name version md h
  refine ⟨?_, ?_, ?_⟩
  · simp only [update_model_status, hget]
  · simp only [update_model_status, hget]
    first
    | (split <;> simpa using dictGet_dictSet_self (name ++ ":" ++ version) _ _)
    | simpa using dictGet_dictSet_self (name ++ ":" ++ version) _ _
  · simp only [update_model_status, hget]
    first
    | (split <;> rfl)
    | rfl

/-- When the metadata resolves but the file's current content disagrees
with the recorded size or hash, the integrity check fails, returning
`(False, reason)` and only the cache-updated state. -/
theorem validate_model_integrity_fails (hash : List Nat → String) (s : VMState)
    (t : ModelType) (name version : String) (md : ModelMetadata) (content : List Nat)
    (hmd : (get_model_metadata s t name version).2 = some md)
    (hfile : dictGet md.file_path s.fileBytes = some content)
    (hbad : content.length ≠ md.file_size_bytes ∨ hash content ≠ md.file_hash) :
    ∃ m, validate_model_integrity hash s t name version =
      ((get_model_metadata s t name version).1, (false, m)) := by
  have hfb := (get_model_metadata_frame s t name version).2.2.2
  set S1 := (get_model_metadata s t name version).1 with hS1
  have hE : get_model_metadata s t name version = (S1, some md) := by
    rw [← hmd, hS1]
  rw [← hfb] at hfile
  by_cases hsz : content.length = md.file_size_bytes
  · rcases hbad with hb | hb
    · exact absurd hsz hb
    · exact ⟨"File hash mismatch: expected " ++ md.file_hash ++ ", got " ++ hash content,
        by simp [validate_model_integrity, hE, hfile, hsz, hb]⟩
  · exact ⟨"File size mismatch: expected " ++ toString md.file_size_bytes ++
        ", got " ++ toString content.length,
      by simp [validate_model_integrity, hE, hfile, hsz]⟩

/-! ## C2 — mutated artifact bytes: integrity failure, load fails, status ERROR -/

/-- C2: for a registered artifact (its metadata resolves) whose file's
current content disagrees with the recorded size or hash (the effect of
mutating the bytes after registration), the integrity check reports
failure, and a (fresh) `load_model` of that `(type, name, version)` returns
`False`, creates no in-memory loaded entry, and sets the artifact's status
in the Version Manager to ERROR. -/
theorem load_model_integrity_failure (hash : List Nat → String) (s : MMState)
    (t : ModelType) (name version : String) (now : Nat) (md : ModelMetadata)
    (content : List Nat)
    (hnl : dictGet (get_model_key t name version) s.loaded_models = none)
    (hmd : (get_model_metadata s.vm t name version).2 = some md)
    (hfile : dictGet md.file_path s.vm.fileBytes = some content)
    (hbad : content.length ≠ md.file_size_bytes ∨ hash content ≠ md.file_hash) :
    ((validate_model_integrity hash s.vm t name version).2).1 = false ∧
    (load_model hash s t name (some version) now).2 = false ∧
    ((load_model hash s t name (some version) now).1).loaded_models = s.loaded_models ∧
    (get_model_metadata ((load_model hash s t name (some version) now).1).vm
        t name version).2 =
      some { md with status := ModelStatus.error, updated_at := now } := by
  obtain ⟨m0, hval0⟩ :=
    validate_model_integrity_fails hash s.vm t name version md content hmd hfile hbad
  set S1 := (get_model_metadata s.vm t name version).1 with hS1
  have hE : get_model_metadata s.vm t name version = (S1, some md) := by
    rw [← hmd, hS1]
  have hidem : get_model_metadata S1 t name version = (S1, some md) := by
    have h := get_model_metadata_idem s.vm t t name version md hmd
    rw [← hS1] at h
    exact h
  have hfb : S1.fileBytes = s.vm.fileBytes := by
    have h := (get_model_metadata_frame s.vm t name version).2.2.2
    rw [← hS1] at h
    exact h
  have hfileS : dictGet md.file_path S1.fileBytes = some content := by
    rw [hfb]; exact hfile
  have hmdS : (get_model_metadata S1 t name version).2 = some md := by rw [hidem]
  obtain ⟨m1, hval1⟩ :=
    validate_model_integrity_fails hash S1 t name version md content hmdS hfileS hbad
  have hfst : (get_model_metadata S1 t name version).1 = S1 := by rw [hidem]
  rw [hfst] at hval1
  have hcache : dictGet (name ++ ":" ++ version) S1.metadataCache = some md := by
    have h := get_model_metadata_caches s.vm t name version md hmd
    rw [← hS1] at h
    exact h
  obtain ⟨hu1, hu2, hu3⟩ :=
    update_model_status_cached S1 t name version md ModelStatus.error now hcache
  have hfin := get_model_metadata_cache_hit
    ((update_model_status S1 t name version ModelStatus.error now).1)
    t name version _ hu2
  have hload : load_model hash s t name (some version) now =
      ({ s with vm := (update_model_status S1 t name version ModelStatus.error now).1 },
        false) := by
    simp [load_model, dictMem, hnl, hE, hval1]
  refine ⟨?_, ?_, ?_, ?_⟩
  · rw [hval0]
  · rw [hload]
  · rw [hload]
  · rw [hload]
    exact congrArg Prod.snd hfin

/-- C2 witness: `default:v1` registered with recorded size 1; the artifact
file then mutated to 2 bytes.  Integrity fails, the load fails, no entry is
created and the status becomes ERROR. -/
theorem load_model_integrity_failure_witness :
    (load_model constHash mmC2 ModelType.taskParser "default" (some "v1") 9).2 = false ∧
    ((load_model constHash mmC2 ModelType.taskParser "default" (some "v1") 9).1).loaded_models
      = mmC2.loaded_models ∧
    (get_model_metadata
        ((load_model constHash mmC2 ModelType.taskParser "default" (some "v1") 9).1).vm
        ModelType.taskParser "default" "v1").2 =
      some { mdC2 with status := ModelStatus.error, updated_at := 9 } := by
  have h := load_model_integrity_failure constHash mmC2 ModelType.taskParser
    "default" "v1" 9 mdC2 [0, 1] rfl rfl rfl (Or.inl (by decide))
  exact ⟨h.2.1, h.2.2.1, h.2.2.2⟩

/-! ## C3 — config build failure: load fails but status is left at LOADING -/

/-- C3 counterexample to the claim as stated: a registered artifact whose
file passes the integrity check but whose stored config is invalid
(temperature 3.0).  `load_model` returns `False` and creates no entry, but
the artifact's status after the call is LOADING — not ERROR, contradicting
the claim that a config failure transitions the artifact to ERROR. -/
theorem load_model_config_failure_counterexample :
    (load_model constHash mmC3 ModelType.taskParser "default" (some "v1") 9).2 = false ∧
    (Option.map ModelMetadata.status
        (get_model_metadata
          ((load_model constHash mmC3 ModelType.taskParser "default" (some "v1") 9).1).vm
          ModelType.taskParser "default" "v1").2) = some ModelStatus.loading ∧
    ModelStatus.loading ≠ ModelStatus.error := by
  refine ⟨rfl, rfl, by decide⟩

/-- C3 (amended): when the key is not yet loaded, the metadata resolves,
the integrity check passes, and building the runtime configuration fails,
`load_model` returns `False` and creates no in-memory entry, but the
artifact's persisted status is left at LOADING (the ERROR transition
happens only for integrity failures and raised exceptions). -/
theorem load_model_config_failure_leaves_loading (hash : List Nat → String)
    (s : MMState) (t : ModelType) (name version : String) (now : Nat)
    (md : ModelMetadata) (content : List Nat)
    (hnl : dictGet (get_model_key t name version) s.loaded_models = none)
    (hmd : (get_model_metadata s.vm t name version).2 = some md)
    (hfile : dictGet md.file_path s.vm.fileBytes = some content)
    (hsz : content.length = md.file_size_bytes)
    (hh : hash content = md.file_hash)
    (hcfg : buildModelConfig t name version md.config = none) :
    (load_model hash s t name (some version) now).2 = false ∧
    ((load_model hash s t name (some version) now).1).loaded_models = s.loaded_models ∧
    (get_model_metadata ((load_model hash s t name (some version) now).1).vm
        t name version).2 =
      some { md with status := ModelStatus.loading, updated_at := now } := by
  set S1 := (get_model_metadata s.vm t name version).1 with hS1
  have hE : get_model_metadata s.vm t name version = (S1, some md) := by
    rw [← hmd, hS1]
  have hidem : get_model_metadata S1 t name version = (S1, some md) := by
    have h := get_model_metadata_idem s.vm t t name version md hmd
    rw [← hS1] at h
    exact h
  have hfb : S1.fileBytes = s.vm.fileBytes := by
    have h := (get_model_metadata_frame s.vm t name version).2.2.2
    rw [← hS1] at h
    exact h
  have hfileS : dictGet md.file_path S1.fileBytes = some content := by
    rw [hfb]; exact hfile
  have hval : validate_model_integrity hash S1 t name version =
      (S1, (true, "Model integrity validated")) := by
    simp [validate_model_integrity, hidem, hfileS, hsz, hh]
  have hcache : dictGet (name ++ ":" ++ version) S1.metadataCache = some md := by
    have h := get_model_metadata_caches s.vm t name version md hmd
    rw [← hS1] at h
    exact h
  obtain ⟨hu1, hu2, hu3⟩ :=
    update_model_status_cached S1 t name version md ModelStatus.loading now hcache
  have hfin := get_model_metadata_cache_hit
    ((update_model_status S1 t name version ModelStatus.loading now).1)
    t name version _ hu2
  have hgc : get_model_config
      ((update_model_status S1 t name version ModelStatus.loading now).1)
      t name version =
      ((update_model_status S1 t name version ModelStatus.loading now).1,
        none) := by
    simp [get_model_config, hfin, hcfg]
  have hload : load_model hash s t name (some version) now =
      ({ s with vm := (update_model_status S1 t name version ModelStatus.loading now).1 },
        false) := by
    simp [load_model, dictMem, hnl, hE, hval, hgc]
  refine ⟨?_, ?_, ?_⟩
  · rw [hload]
  · rw [hload]
  · rw [hload]
    exact congrArg Prod.snd hfin

/-- C3 (amended) witness: the concrete invalid-temperature scenario. -/
theorem load_model_config_failure_leaves_loading_witness :
    (load_model constHash mmC3 ModelType.taskParser "default" (some "v1") 9).2 = false ∧
    (get_model_metadata
        ((load_model constHash mmC3 ModelType.taskParser "default" (some "v1") 9).1).vm
        ModelType.taskParser "default" "v1").2 =
      some { mdC3 with status := ModelStatus.loading, updated_at := 9 } := by
  have h := load_model_config_failure_leaves_loading constHash mmC3
    ModelType.taskParser "default" "v1" 9 mdC3 [7] rfl rfl rfl (by decide) rfl
    (by decide)
  exact ⟨h.1, h.2.2⟩

/-! ## C1 — version listing: registry contents, key splitting, sorting -/

theorem dictGet_eq_none_of_not_mem {α : Type} (k : String) (d : List (String × α))
    (h : k ∉ d.map Prod.fst) : dictGet k d = none := by
  induction d with
  | nil => rfl
  | cons hd tl ih =>
    obtain ⟨k1, v1⟩ := hd
    simp only [List.map_cons, List.mem_cons] at h
    push_neg at h
    simp [dictGet, Ne.symm h.1, ih h.2]

theorem splitFirstColonAux_append (n v : List Char) (h : ':' ∉ n) :
    splitFirstColonAux (n ++ ':' :: v) = some (n, v) := by
  induction n with
  | nil => simp [splitFirstColonAux]
  | cons c cs ih =>
    simp only [List.mem_cons] at h
    push_neg at h
    simp only [List.cons_append, splitFirstColonAux, if_neg (Ne.symm h.1)]
    rw [show cs.append (':' :: v) = cs ++ ':' :: v from rfl, ih h.2]

theorem splitFirstColon_key (name version : String) (h : ':' ∉ name.data) :
    splitFirstColon (name ++ ":" ++ version) = (name, version) := by
  unfold splitFirstColon
  have hd : (name ++ ":" ++ version).data = name.data ++ ':' :: version.data := by
    simp [String.data_append]
  rw [hd, splitFirstColonAux_append name.data version.data h]

theorem regAll_registries (ms : List ModelMetadata) (s : VMState) (t : ModelType) :
    (regAll s ms).registries t =
      ms.foldl (fun r m =>
        if m.model_type = t then
          dictSet (m.name ++ ":" ++ m.version) (regEntryOf m) r
        else r)
        (s.registries t) := by
  induction ms generalizing s with
  | nil => rfl
  | cons m rest ih =>
    simp only [regAll, List.foldl_cons] at ih ⊢
    rw [ih]
    congr 1
    by_cases hm : m.model_type = t
    · simp [register_model, setRegistry, hm]
    · simp only [register_model, setRegistry, if_neg hm]
      rw [if_neg (fun hh : t = m.model_type => hm hh.symm)]

theorem foldl_regStep_fresh (t : ModelType) :
    ∀ (ms : List ModelMetadata) (r : List (String × RegistryEntry)),
      (r.map Prod.fst ++ typeKeys ms t).Nodup →
      ms.foldl (fun r2 m =>
        if m.model_type = t then
          dictSet (m.name ++ ":" ++ m.version) (regEntryOf m) r2
        else r2) r
      = r ++ regListOf ms t := by
  intro ms
  induction ms with
  | nil => intro r _; simp [regListOf]
  | cons m rest ih =>
    intro r h
    by_cases hm : m.model_type = t
    · have htk : typeKeys (m :: rest) t
          = (m.name ++ ":" ++ m.version) :: typeKeys rest t := by
        simp [typeKeys, hm]
      rw [htk] at h
      rw [List.nodup_append] at h
      have hk : (m.name ++ ":" ++ m.version) ∉ r.map Prod.fst := by
        intro hmem
        exact h.2.2 hmem (List.mem_cons_self _ _)
      have hfresh := dictSet_append_of_get_none (m.name ++ ":" ++ m.version)
        (regEntryOf m) r (dictGet_eq_none_of_not_mem _ r hk)
      simp only [List.foldl_cons, if_pos hm, hfresh]
      have hnd2 : ((r ++ [(m.name ++ ":" ++ m.version, regEntryOf m)]).map Prod.fst
          ++ typeKeys rest t).Nodup := by
        rw [List.map_append, List.append_assoc]
        simp only [List.map_cons, List.map_nil, List.singleton_append]
        rw [List.nodup_append]
        refine ⟨h.1, h.2.1, ?_⟩
        intro a ha
        have := h.2.2 ha
        simpa using this
      rw [ih _ hnd2, List.append_assoc]
      simp [regListOf, hm]
    · have htk : typeKeys (m :: rest) t = typeKeys rest t := by
        simp [typeKeys, hm]
      rw [htk] at h
      simp only [List.foldl_cons, if_neg hm]
      rw [ih _ h]
      simp [regListOf, hm]

theorem regListOf_versions (ms : List ModelMetadata) (t : ModelType) (name : String)
    (hcf : ∀ m ∈ ms, ':' ∉ m.name.data) :
    (regListOf ms t).filterMap (fun kv =>
        if (splitFirstColon kv.1).1 = name then some (splitFirstColon kv.1).2 else none)
      = versionsOf ms t name := by
  induction ms with
  | nil => rfl
  | cons m rest ih =>
    have hcfm := hcf m (List.mem_cons_self _ _)
    have ihr := ih (fun m2 hm2 => hcf m2 (List.mem_cons_of_mem _ hm2))
    by_cases hm : m.model_type = t
    · have hsplit := splitFirstColon_key m.name m.version hcfm
      have hcons : regListOf (m :: rest) t
          = (m.name ++ ":" ++ m.version, regEntryOf m) :: regListOf rest t := by
        simp [regListOf, hm]
      rw [hcons, List.filterMap_cons]
      by_cases hn : m.name = name
      · subst hn
        have hvcons : versionsOf (m :: rest) t m.name
            = m.version :: versionsOf rest t m.name := by
          simp [versionsOf, hm]
        rw [hvcons]
        simp [hsplit, ihr]
      · have hvcons : versionsOf (m :: rest) t name = versionsOf rest t name := by
          simp [versionsOf, hm, hn]
        rw [hvcons]
        simp [hsplit, hn, ihr]
    · have hcons : regListOf (m :: rest) t = regListOf rest t := by
        simp [regListOf, hm]
      have hvcons : versionsOf (m :: rest) t name = versionsOf rest t name := by
        simp [versionsOf, hm]
      rw [hcons, hvcons, ihr]

/-- C1 (amended): over a registry built by registering any list of metadata
whose names contain no colon (under per-type duplicate-free
`"name:version"` keys), `list_versions` returns exactly the registered
version strings of the requested type and name, sorted descending in
Python's lexicographic string order, and `get_latest_version` is the head
of that list (absent when no versions exist).  In particular, when the
registered versions for the name are `v1`, `v2`, `v10` in ANY order, the
listing is `["v2", "v10", "v1"]` and the latest version is `"v2"`, not
`"v10"`. -/
theorem list_versions_sorted_desc (base : String) (ms : List ModelMetadata)
    (t : ModelType) (name : String)
    (hcf : ∀ m ∈ ms, ':' ∉ m.name.data)
    (hnd : ∀ t2, (typeKeys ms t2).Nodup) :
    (list_versions (regAll (initVMState base) ms) t name).Perm
      (versionsOf ms t name) ∧
    List.Sorted pyGe (list_versions (regAll (initVMState base) ms) t name) ∧
    get_latest_version (regAll (initVMState base) ms) t name
      = (list_versions (regAll (initVMState base) ms) t name).head? ∧
    ((versionsOf ms t name).Perm ["v1", "v2", "v10"] →
      list_versions (regAll (initVMState base) ms) t name = ["v2", "v10", "v1"] ∧
      get_latest_version (regAll (initVMState base) ms) t name = some "v2") := by
  have hreg : (regAll (initVMState base) ms).registries t = regListOf ms t := by
    rw [regAll_registries]
    have h := foldl_regStep_fresh t ms [] (by simpa using hnd t)
    simpa [initVMState] using h
  have hlv : list_versions (regAll (initVMState base) ms) t name
      = pySortDesc (versionsOf ms t name) := by
    simp only [list_versions, hreg]
    rw [regListOf_versions ms t name hcf]
  refine ⟨?_, ?_, rfl, ?_⟩
  · rw [hlv]
    exact List.perm_insertionSort pyGe _
  · rw [hlv]
    exact List.sorted_insertionSort pyGe _
  · intro hp
    have h1 : list_versions (regAll (initVMState base) ms) t name
        = ["v2", "v10", "v1"] := by
      rw [hlv]
      have hperm : (pySortDesc (versionsOf ms t name)).Perm ["v2", "v10", "v1"] :=
        ((List.perm_insertionSort pyGe _).trans hp).trans (by decide)
      have hs1 : List.Sorted pyGe (pySortDesc (versionsOf ms t name)) :=
        List.sorted_insertionSort pyGe _
      have hs2 : List.Sorted pyGe ["v2", "v10", "v1"] := by decide
      exact List.eq_of_perm_of_sorted hperm hs1 hs2
    refine ⟨h1, ?_⟩
    rw [get_latest_version, h1]
    rfl

/-- C1 witness: registering `default` versions in the order v1, v10, v2
yields the listing `["v2", "v10", "v1"]` and latest `"v2"`. -/
theorem list_versions_sorted_desc_witness :
    list_versions (regAll (initVMState "models") msC1) ModelType.taskParser "default"
      = ["v2", "v10", "v1"] ∧
    get_latest_version (regAll (initVMState "models") msC1) ModelType.taskParser "default"
      = some "v2" :=
  (list_versions_sorted_desc "models" msC1 ModelType.taskParser "default"
    (by decide) (fun t2 => by cases t2 <;> decide)).2.2.2 (by decide)

/-- C1 counterexample to the claim as stated for EVERY name: for a name
containing a colon (here `"a:b"`), registration succeeds and records
version `"v1"`, yet `list_versions` returns `[]` (the registry key is split
at its FIRST colon, so the recovered name is `"a"`) and
`get_latest_version` is absent. -/
theorem list_versions_colon_name_counterexample :
    (register_model (initVMState "models") mdColon).2 = true ∧
    versionsOf [mdColon] ModelType.taskParser "a:b" = ["v1"] ∧
    list_versions ((register_model (initVMState "models") mdColon).1)
      ModelType.taskParser "a:b" = [] ∧
    get_latest_version ((register_model (initVMState "models") mdColon).1)
      ModelType.taskParser "a:b" = none :=
  ⟨rfl, by decide, by decide, by decide⟩

/-! ## C8 — `validate_config` reports findings as error strings -/

theorem foldl_mem_mono {β : Type} (step : List String → β → List String)
    (hstep : ∀ acc x e, e ∈ acc → e ∈ step acc x) :
    ∀ (l : List β) (acc : List String) (e : String),
      e ∈ acc → e ∈ l.foldl step acc := by
  intro l
  induction l with
  | nil => intro acc e he; simpa using he
  | cons x xs ih => intro acc e he; exact ih _ _ (hstep acc x e he)

theorem foldl_mem_of_mem {β : Type} (step : List String → β → List String)
    (hstep : ∀ acc x e, e ∈ acc → e ∈ step acc x) :
    ∀ (l : List β) (acc : List String) (x : β) (e : String),
      x ∈ l → (∀ acc2, e ∈ step acc2 x) → e ∈ l.foldl step acc := by
  intro l
  induction l with
  | nil => intro acc x e hx _; simp at hx
  | cons y ys ih =>
    intro acc x e hx he
    rcases List.mem_cons.mp hx with rfl | hx2
    · exact foldl_mem_mono step hstep ys (step acc x) e (he acc)
    · exact ih (step acc y) x e hx2 he

theorem validateVersionEntry_mono (tstr nm : String)
    (acc : List String) (vv : String × VersionDef) (e : String)
    (he : e ∈ acc) : e ∈ validateVersionEntry tstr nm acc vv := by
  unfold validateVersionEntry
  split <;> split <;> simp [he]

theorem validateNameEntry_mono (tstr : String) (acc : List String)
    (nm : String × ModelDef) (e : String) (he : e ∈ acc) :
    e ∈ validateNameEntry tstr acc nm := by
  unfold validateNameEntry
  cases hv : nm.2.versions with
  | none => simp [he]
  | some vs =>
      apply foldl_mem_mono _ (validateVersionEntry_mono tstr nm.1)
      cases hd : nm.2.default_version with
      | none => simp [he]
      | some dv => split <;> split <;> simp [he]

theorem validateTypeEntry_mono (acc : List String)
    (tm : String × List (String × ModelDef)) (e : String) (he : e ∈ acc) :
    e ∈ validateTypeEntry acc tm := by
  unfold validateTypeEntry
  cases ht : modelTypeOfString tm.1 with
  | none => simp [he]
  | some t => exact foldl_mem_mono _ (validateNameEntry_mono tm.1) tm.2 acc e he

theorem validateNameEntry_adds_default_err (tstr : String) (nm : String × ModelDef)
    (vs : List (String × VersionDef)) (dv : String)
    (hv : nm.2.versions = some vs) (hd : nm.2.default_version = some dv)
    (hne : dv ≠ "") (hnotin : dictGet dv vs = none) (acc : List String) :
    ("Default version \x27" ++ dv ++ "\x27 not found in versions for " ++
      tstr ++ "/" ++ nm.1) ∈ validateNameEntry tstr acc nm := by
  unfold validateNameEntry
  rw [hv, hd]
  simp only [Option.some.injEq, reduceCtorEq, if_neg]
  rw [if_pos ⟨hne, hnotin⟩]
  apply foldl_mem_mono _ (validateVersionEntry_mono tstr nm.1)
  simp

/-- C8 (amended): `validate_config` returns its findings as a list of error
strings without raising: a document with no `model_definitions` section
yields at least one error, and a model whose NON-EMPTY `default_version`
is not a key of its `versions` map yields an error string containing the
mismatched version string (for the empty string, a falsy value in Python,
the check is skipped — see the counterexample). -/
theorem validate_config_findings :
    (∀ doc : ConfigDoc, doc.model_definitions = none → validate_config doc ≠ []) ∧
    (∀ (doc : ConfigDoc) (defs : List (String × List (String × ModelDef)))
        (tstr : String) (models : List (String × ModelDef)) (t : ModelType)
        (nm : String × ModelDef) (vs : List (String × VersionDef)) (dv : String),
      doc.model_definitions = some defs →
      (tstr, models) ∈ defs → modelTypeOfString tstr = some t →
      nm ∈ models → nm.2.versions = some vs →
      nm.2.default_version = some dv → dv ≠ "" → dictGet dv vs = none →
      ∃ e ∈ validate_config doc, ∃ l r : List Char,
        e.data = l ++ dv.data ++ r) := by
  constructor
  · intro doc hnone
    unfold validate_config
    by_cases hf : configFalsy doc <;> simp [hf, hnone]
  · intro doc defs tstr models t nm vs dv hdefs hmem ht hnm hv hd hne hnotin
    have hfalsy : configFalsy doc = false := by
      simp [configFalsy, hdefs]
    have hadds : ∀ acc, ("Default version \x27" ++ dv ++
        "\x27 not found in versions for " ++ tstr ++ "/" ++ nm.1)
          ∈ validateTypeEntry acc (tstr, models) := by
      intro acc
      unfold validateTypeEntry
      rw [ht]
      exact foldl_mem_of_mem _ (validateNameEntry_mono tstr) models acc nm _ hnm
        (fun acc2 => validateNameEntry_adds_default_err tstr nm vs dv hv hd hne hnotin acc2)
    have hmem2 : ("Default version \x27" ++ dv ++
        "\x27 not found in versions for " ++ tstr ++ "/" ++ nm.1)
          ∈ validate_config doc := by
      unfold validate_config
      rw [hfalsy, hdefs]
      simp only [Bool.false_eq_true, if_neg]
      exact foldl_mem_of_mem _ validateTypeEntry_mono defs [] (tstr, models) _ hmem hadds
    refine ⟨_, hmem2, ("Default version \x27").data,
      ("\x27 not found in versions for " ++ tstr ++ "/" ++ nm.1).data, ?_⟩
    simp [String.data_append]

/-- C8 witness: for the concrete document declaring `default_version`
`"v2"` with only `"v1"` present, an error containing `"v2"` is returned;
for the concrete document without a `model_definitions` section the error
list is non-empty. -/
theorem validate_config_findings_witness :
    (∃ e ∈ validate_config docC8w, ∃ l r : List Char,
      e.data = l ++ ("v2" : String).data ++ r) ∧
    validate_config docC8missing ≠ [] := by
  constructor
  · exact validate_config_findings.2 docC8w
      [("task_parser", [("default", mdefC8w)])] "task_parser"
      [("default", mdefC8w)] ModelType.taskParser ("default", mdefC8w)
      [("v1", vdefMock)] "v2" rfl (List.mem_singleton.mpr rfl) rfl
      (List.mem_singleton.mpr rfl) rfl rfl (by decide) rfl
  · exact validate_config_findings.1 docC8missing rfl

/-- C8 counterexample to the claim as stated: the empty string is a valid
version string that is not a key of the model's `versions` map, yet
`validate_config` returns NO error at all (Python's truthiness test
`if default_version` skips the check for `""`), so no returned error string
can contain the mismatched version. -/
theorem validate_config_empty_default_counterexample :
    dictGet "" [("v1", vdefMock)] = none ∧
    validate_config docC8empty = [] := by
  exact ⟨rfl, rfl⟩

/-! ## C7 — reconciliation: flattening the nested loops -/

theorem foldl_versLevel (hash : List Nat → String) (now : Nat) (tstr : String)
    (t : ModelType) (name : String) :
    ∀ (vvs : List (String × VersionDef)) (acc : VMState × List (String × Bool)),
      vvs.foldl (initVersionStep hash now tstr t name) acc
        = (vvs.map (mkDeclItem tstr t name)).foldl (itemStep hash now) acc := by
  intro vvs
  induction vvs with
  | nil => intro acc; rfl
  | cons vv rest ih =>
      intro acc
      simp only [List.map_cons, List.foldl_cons]
      rw [ih]
      rfl

theorem foldl_nameLevel (hash : List Nat → String) (now : Nat) (tstr : String)
    (t : ModelType) :
    ∀ (nms : List (String × ModelDef)) (acc : VMState × List (String × Bool)),
      nms.foldl (initNameStep hash now tstr t) acc
        = (nms.flatMap (fun nm =>
            (nm.2.versions.getD []).map (mkDeclItem tstr t nm.1))).foldl
            (itemStep hash now) acc := by
  intro nms
  induction nms with
  | nil => intro acc; rfl
  | cons nm rest ih =>
      intro acc
      simp only [List.flatMap_cons, List.foldl_cons, List.foldl_append]
      rw [← foldl_versLevel, ← ih]
      rfl

theorem foldl_typeLevel (hash : List Nat → String) (now : Nat) :
    ∀ (tms : List (String × List (String × ModelDef)))
      (acc : VMState × List (String × Bool)),
      tms.foldl (initTypeStep hash now) acc
        = (tms.flatMap (fun tm =>
            match modelTypeOfString tm.1 with
            | none => []
            | some t => tm.2.flatMap (fun nm =>
                (nm.2.versions.getD []).map (mkDeclItem tm.1 t nm.1)))).foldl
            (itemStep hash now) acc := by
  intro tms
  induction tms with
  | nil => intro acc; rfl
  | cons tm rest ih =>
      intro acc
      simp only [List.flatMap_cons, List.foldl_cons, List.foldl_append]
      cases ht : modelTypeOfString tm.1 with
      | none =>
          rw [← ih]
          simp only [List.nil_append]
          congr 1
          simp [initTypeStep, ht]
      | some t =>
          rw [← ih]
          congr 1
          simp only [initTypeStep, ht]
          exact foldl_nameLevel hash now tm.1 t tm.2 acc

/-- The reconciliation run is the fold of `itemStep` over the flattened
declared items. -/
theorem init_eq_itemsFold (hash : List Nat → String) (doc : ConfigDoc)
    (vm : VMState) (now : Nat) :
    initialize_models_from_config hash doc vm now
      = (declItems doc).foldl (itemStep hash now) (vm, []) := by
  unfold initialize_models_from_config declItems
  exact foldl_typeLevel hash now _ (vm, [])

/-! ### Frame lemmas: what one reconciliation step can touch -/

theorem get_model_metadata_cache_frame (s : VMState) (t : ModelType)
    (name version : String) (k : String) (hk : k ≠ name ++ ":" ++ version) :
    dictGet k ((get_model_metadata s t name version).1).metadataCache
      = dictGet k s.metadataCache := by
  unfold get_model_metadata
  cases dictGet (name ++ ":" ++ version) s.metadataCache with
  | some m => rfl
  | none =>
      cases dictGet (metadataFilePath s.models_base_path t name version) s.metadataFiles with
      | none => rfl
      | some m => simpa using dictGet_dictSet_ne _ k m s.metadataCache hk

/-- Everything `itemStep` can change, bounded by the item's own keys and
paths: base path preserved; metadata files only at the item's
`metadata.json` path; the registries only at the item's type and
`"name:version"` key; the cache only at the item's `"name:version"` key;
artifact files only at the item's placeholder path; the result dictionary
only at the item's result key. -/
theorem itemStep_frame (hash : List Nat → String) (now : Nat)
    (acc : VMState × List (String × Bool)) (it : DeclItem) :
    (itemStep hash now acc it).1.models_base_path = acc.1.models_base_path ∧
    (∀ p, p ≠ itemMetaPath acc.1.models_base_path it →
      dictGet p (itemStep hash now acc it).1.metadataFiles
        = dictGet p acc.1.metadataFiles) ∧
    (∀ t2 k, t2 ≠ it.t ∨ k ≠ itemNvKey it →
      dictGet k ((itemStep hash now acc it).1.registries t2)
        = dictGet k (acc.1.registries t2)) ∧
    (∀ k, k ≠ itemNvKey it →
      dictGet k (itemStep hash now acc it).1.metadataCache
        = dictGet k acc.1.metadataCache) ∧
    (∀ p, p ≠ itemMockPath acc.1.models_base_path it →
      dictGet p (itemStep hash now acc it).1.fileBytes
        = dictGet p acc.1.fileBytes) ∧
    (∀ k, k ≠ itemResKey it →
      dictGet k (itemStep hash now acc it).2 = dictGet k acc.2) := by
  unfold itemStep initVersionStep
  cases hcv : dictGet (it.name ++ ":" ++ it.version) acc.1.metadataCache with
  | some md =>
      have hg : get_model_metadata acc.1 it.t it.name it.version = (acc.1, some md) :=
        get_model_metadata_cache_hit _ _ _ _ _ hcv
      rw [hg]
      exact ⟨rfl, fun p _ => rfl, fun t2 k _ => rfl, fun k _ => rfl,
        fun p _ => rfl,
        fun k hk => dictGet_dictSet_ne _ k true acc.2 hk⟩
  | none =>
      unfold get_model_metadata
      rw [hcv]
      cases hfv : dictGet (metadataFilePath acc.1.models_base_path it.t it.name it.version)
          acc.1.metadataFiles with
      | some md =>
          refine ⟨rfl, fun p _ => rfl, fun t2 k _ => rfl, ?_, fun p _ => rfl,
            fun k hk => dictGet_dictSet_ne _ k true acc.2 hk⟩
          intro k hk
          simpa using dictGet_dictSet_ne _ k md acc.1.metadataCache hk
      | none =>
          by_cases hmock : it.vdef.model_source = some "mock"
          · simp only [if_pos hmock, create_mock_model, create_model_metadata,
              dictGet_dictSet_self]
            cases hmk : mkModelMetadata it.name it.version it.t
                (some (it.vdef.description.getD ("Mock " ++ it.t.value ++ " model")))
                (modelDirPath acc.1.models_base_path it.t it.name it.version ++ "/model.json")
                (mockModelBytes it.t it.name it.version).length
                (hash (mockModelBytes it.t it.name it.version))
                (it.vdef.model_source.getD "mock") Option.none
                (it.vdef.memory_requirement_mb.getD 128) Option.none Option.none
                now now ModelStatus.available [] Option.none Option.none
                (it.vdef.config.getD []) with
            | error e =>
                refine ⟨rfl, fun p _ => rfl, fun t2 k _ => rfl, fun k _ => rfl, ?_,
                  fun k hk => dictGet_dictSet_ne _ k false acc.2 hk⟩
                intro p hp
                simpa [itemMockPath] using
                  dictGet_dictSet_ne _ p (mockModelBytes it.t it.name it.version)
                    acc.1.fileBytes hp
            | ok md =>
                have hmd : md.model_type = it.t ∧ md.name = it.name ∧
                    md.version = it.version := by
                  unfold mkModelMetadata at hmk
                  cases h1 : validate_file_hash (hash (mockModelBytes it.t it.name it.version)) with
                  | error e => simp [h1, Except.bind, bind] at hmk
                  | ok fh =>
                      cases h2 : validate_accuracy_score Option.none with
                      | error e => simp [h1, h2, Except.bind, bind] at hmk
                      | ok acc2 =>
                          simp [h1, h2, Except.bind, bind] at hmk
                          rw [← hmk]
                          exact ⟨rfl, rfl, rfl⟩
                unfold register_model
                refine ⟨rfl, ?_, ?_, ?_, ?_, fun k hk => dictGet_dictSet_ne _ k true acc.2 hk⟩
                · intro p hp
                  simp only
                  rw [dictGet_dictSet_ne]
                  rw [hmd.1, hmd.2.1, hmd.2.2]
                  simpa [itemMetaPath] using hp
                · intro t2 k hk
                  simp only [setRegistry]
                  by_cases ht2 : t2 = md.model_type
                  · subst ht2
                    rw [if_pos rfl]
                    rcases hk with hk | hk
                    · exact absurd hmd.1 (by
                        intro hh
                        exact hk (by rw [← hh]))
                    · rw [dictGet_dictSet_ne]
                      rw [hmd.2.1, hmd.2.2]
                      simpa [itemNvKey] using hk
                  · rw [if_neg ht2]
                · intro k hk
                  simp only
                  rw [dictGet_dictSet_ne]
                  rw [hmd.2.1, hmd.2.2]
                  simpa [itemNvKey] using hk
                · intro p hp
                  simp only
                  simpa [itemMockPath] using
                    dictGet_dictSet_ne _ p (mockModelBytes it.t it.name it.version)
                      acc.1.fileBytes hp
          · simp only [if_neg hmock]
            exact ⟨trivial, fun _ _ => trivial, fun _ _ _ => trivial,
              fun _ _ => trivial, fun _ _ => trivial,
              fun k hk => dictGet_dictSet_ne _ k false acc.2 hk⟩

/-- Frame of a whole reconciliation fold: keys/paths touched by none of the
items keep their values. -/
theorem itemsFold_frame (hash : List Nat → String) (now : Nat) :
    ∀ (items : List DeclItem) (acc : VMState × List (String × Bool)),
      ((items.foldl (itemStep hash now) acc).1.models_base_path
        = acc.1.models_base_path) ∧
      (∀ p, (∀ it ∈ items, p ∉ itemPaths acc.1.models_base_path it) →
        dictGet p (items.foldl (itemStep hash now) acc).1.metadataFiles
          = dictGet p acc.1.metadataFiles ∧
        dictGet p (items.foldl (itemStep hash now) acc).1.fileBytes
          = dictGet p acc.1.fileBytes) ∧
      (∀ k, (∀ it ∈ items, k ≠ itemNvKey it) →
        (∀ t2, dictGet k ((items.foldl (itemStep hash now) acc).1.registries t2)
          = dictGet k (acc.1.registries t2)) ∧
        dictGet k (items.foldl (itemStep hash now) acc).1.metadataCache
          = dictGet k acc.1.metadataCache) ∧
      (∀ k, (∀ it ∈ items, k ≠ itemResKey it) →
        dictGet k (items.foldl (itemStep hash now) acc).2 = dictGet k acc.2) := by
  intro items
  induction items with
  | nil =>
      intro acc
      exact ⟨rfl, fun p _ => ⟨rfl, rfl⟩, fun k _ => ⟨fun t2 => rfl, rfl⟩,
        fun k _ => rfl⟩
  | cons it0 rest ih =>
      intro acc
      obtain ⟨f1, f2, f3, f4, f5, f6⟩ := itemStep_frame hash now acc it0
      obtain ⟨g1, g2, g3, g4⟩ := ih (itemStep hash now acc it0)
      simp only [List.foldl_cons]
      refine ⟨?_, ?_, ?_, ?_⟩
      · rw [g1, f1]
      · intro p hp
        have hp0 := hp it0 (List.mem_cons_self _ _)
        simp only [itemPaths, List.mem_cons, List.mem_singleton] at hp0
        push_neg at hp0
        have hrest : ∀ it ∈ rest,
            p ∉ itemPaths (itemStep hash now acc it0).1.models_base_path it := by
          rw [f1]
          exact fun it hit => hp it (List.mem_cons_of_mem _ hit)
        obtain ⟨ga, gb⟩ := g2 p hrest
        exact ⟨ga.trans (f2 p hp0.1), gb.trans (f5 p hp0.2.1)⟩
      · intro k hk
        have hk0 := hk it0 (List.mem_cons_self _ _)
        obtain ⟨ga, gb⟩ := g3 k (fun it hit => hk it (List.mem_cons_of_mem _ hit))
        exact ⟨fun t2 => (ga t2).trans (f3 t2 k (Or.inr hk0)),
          gb.trans (f4 k hk0)⟩
      · intro k hk
        exact (g4 k (fun it hit => hk it (List.mem_cons_of_mem _ hit))).trans
          (f6 k (hk it0 (List.mem_cons_self _ _)))

/-! ### Behavior of one reconciliation step -/

/-- Already registered (metadata file present, cache miss): the step records
`True` and only populates the cache. -/
theorem itemStep_registered (hash : List Nat → String) (now : Nat)
    (acc : VMState × List (String × Bool)) (it : DeclItem) (md : ModelMetadata)
    (hc : dictGet (itemNvKey it) acc.1.metadataCache = none)
    (hf : dictGet (itemMetaPath acc.1.models_base_path it) acc.1.metadataFiles
      = some md) :
    itemStep hash now acc it
      = ({ acc.1 with
            metadataCache := dictSet (itemNvKey it) md acc.1.metadataCache },
         dictSet (itemResKey it) true acc.2) := by
  simp only [itemNvKey, itemMetaPath, itemResKey] at hc hf ⊢
  unfold itemStep initVersionStep get_model_metadata
  rw [hc, hf]

/-- Not yet registered, mock source: the step writes the placeholder file,
registers the artifact (possible because the hash digest has length 64)
and records `True`. -/
theorem itemStep_mock (hash : List Nat → String) (now : Nat)
    (acc : VMState × List (String × Bool)) (it : DeclItem)
    (hhash : ∀ c, (hash c).length = 64)
    (hc : dictGet (itemNvKey it) acc.1.metadataCache = none)
    (hf : dictGet (itemMetaPath acc.1.models_base_path it) acc.1.metadataFiles
      = none)
    (hmock : it.vdef.model_source = some "mock") :
    (itemStep hash now acc it).1.models_base_path = acc.1.models_base_path ∧
    (dictGet (itemMetaPath acc.1.models_base_path it)
      (itemStep hash now acc it).1.metadataFiles).isSome = true ∧
    (dictGet (itemNvKey it)
      ((itemStep hash now acc it).1.registries it.t)).isSome = true ∧
    (dictGet (itemMockPath acc.1.models_base_path it)
      (itemStep hash now acc it).1.fileBytes).isSome = true ∧
    (itemStep hash now acc it).2 = dictSet (itemResKey it) true acc.2 := by
  simp only [itemNvKey, itemMetaPath, itemMockPath, itemResKey] at hc hf ⊢
  unfold itemStep initVersionStep
  unfold get_model_metadata
  rw [hc, hf]
  simp only [if_pos hmock, create_mock_model, create_model_metadata,
    dictGet_dictSet_self]
  have hok : validate_file_hash (hash (mockModelBytes it.t it.name it.version))
      = Except.ok (hash (mockModelBytes it.t it.name it.version)) := by
    simp [validate_file_hash, hhash (mockModelBytes it.t it.name it.version)]
  simp only [mkModelMetadata, hok, validate_accuracy_score, Except.bind, bind,
    register_model, setRegistry]
  refine ⟨trivial, ?_, ?_, ?_, trivial⟩
  · simp [dictGet_dictSet_self]
  · simp [dictGet_dictSet_self]
  · simp [dictGet_dictSet_self]

/-- Not yet registered, non-mock source: the step records `False` and
leaves the version-manager state untouched. -/
theorem itemStep_nonmock (hash : List Nat → String) (now : Nat)
    (acc : VMState × List (String × Bool)) (it : DeclItem)
    (hc : dictGet (itemNvKey it) acc.1.metadataCache = none)
    (hf : dictGet (itemMetaPath acc.1.models_base_path it) acc.1.metadataFiles
      = none)
    (hnm : ¬ it.vdef.model_source = some "mock") :
    itemStep hash now acc it = (acc.1, dictSet (itemResKey it) false acc.2) := by
  simp only [itemNvKey, itemMetaPath, itemResKey] at hc hf ⊢
  unfold itemStep initVersionStep
  unfold get_model_metadata
  rw [hc, hf]
  simp [hnm]

/-- Core reconciliation induction: over collision-free declared items,
processed from a state whose metadata cache misses every item, each item's
result entry and writes are determined by its initial registration state. -/
theorem itemsFold_spec (hash : List Nat → String) (now : Nat)
    (hhash : ∀ c, (hash c).length = 64) :
    ∀ (items : List DeclItem) (vm : VMState) (res : List (String × Bool)),
      (∀ it2 ∈ items, dictGet (itemNvKey it2) vm.metadataCache = none) →
      (items.map itemNvKey).Nodup →
      (items.map itemResKey).Nodup →
      (items.flatMap (itemPaths vm.models_base_path)).Nodup →
      ∀ it ∈ items,
        ((dictGet (itemMetaPath vm.models_base_path it) vm.metadataFiles).isSome = true →
          dictGet (itemResKey it) ((items.foldl (itemStep hash now) (vm, res)).2)
            = some true ∧
          dictGet (itemMetaPath vm.models_base_path it)
              ((items.foldl (itemStep hash now) (vm, res)).1.metadataFiles)
            = dictGet (itemMetaPath vm.models_base_path it) vm.metadataFiles ∧
          dictGet (itemNvKey it)
              (((items.foldl (itemStep hash now) (vm, res)).1).registries it.t)
            = dictGet (itemNvKey it) (vm.registries it.t)) ∧
        (dictGet (itemMetaPath vm.models_base_path it) vm.metadataFiles = none →
          it.vdef.model_source = some "mock" →
          dictGet (itemResKey it) ((items.foldl (itemStep hash now) (vm, res)).2)
            = some true ∧
          (dictGet (itemMetaPath vm.models_base_path it)
              ((items.foldl (itemStep hash now) (vm, res)).1.metadataFiles)).isSome
            = true ∧
          (dictGet (itemMockPath vm.models_base_path it)
              ((items.foldl (itemStep hash now) (vm, res)).1.fileBytes)).isSome
            = true) ∧
        (dictGet (itemMetaPath vm.models_base_path it) vm.metadataFiles = none →
          ¬ it.vdef.model_source = some "mock" →
          dictGet (itemResKey it) ((items.foldl (itemStep hash now) (vm, res)).2)
            = some false) := by
  intro items
  induction items with
  | nil => intro vm res _ _ _ _ it hit; simp at hit
  | cons it0 rest ih =>
    intro vm res hc hknd hrnd hpnd it hit
    have hc0 := hc it0 (List.mem_cons_self _ _)
    simp only [List.map_cons, List.nodup_cons] at hknd hrnd
    rw [List.flatMap_cons, List.nodup_append] at hpnd
    obtain ⟨f1, f2, f3, f4, f5, f6⟩ := itemStep_frame hash now (vm, res) it0
    obtain ⟨F1, F2, F3, F4⟩ :=
      itemsFold_frame hash now rest (itemStep hash now (vm, res) it0)
    have hmeta0mem : itemMetaPath vm.models_base_path it0
        ∈ itemPaths vm.models_base_path it0 := by simp [itemPaths]
    have hmock0mem : itemMockPath vm.models_base_path it0
        ∈ itemPaths vm.models_base_path it0 := by simp [itemPaths]
    have hpath0 : ∀ q ∈ itemPaths vm.models_base_path it0, ∀ it2 ∈ rest,
        q ∉ itemPaths vm.models_base_path it2 := by
      intro q hq it2 hit2 hq2
      exact hpnd.2.2 hq (List.mem_flatMap.mpr ⟨it2, hit2, hq2⟩)
    have hres0 : ∀ it2 ∈ rest, itemResKey it0 ≠ itemResKey it2 := by
      intro it2 hit2 hk
      exact hrnd.1 (hk ▸ List.mem_map_of_mem itemResKey hit2)
    have hnv0 : ∀ it2 ∈ rest, itemNvKey it0 ≠ itemNvKey it2 := by
      intro it2 hit2 hk
      exact hknd.1 (hk ▸ List.mem_map_of_mem itemNvKey hit2)
    have hb : (itemStep hash now (vm, res) it0).1.models_base_path
        = vm.models_base_path := f1
    rw [hb] at F2
    simp only [List.foldl_cons]
    rcases List.mem_cons.mp hit with rfl | hrest
    · -- `it0 = it` is the head item
      cases hreg : dictGet (itemMetaPath vm.models_base_path it) vm.metadataFiles with
      | some md =>
          have hstep := itemStep_registered hash now (vm, res) it md hc0 hreg
          refine ⟨?_, ?_, ?_⟩
          · intro _
            refine ⟨?_, ?_, ?_⟩
            · rw [F4 _ (fun it2 hit2 => hres0 it2 hit2), hstep]
              exact dictGet_dictSet_self _ _ _
            · rw [(F2 _ (fun it2 hit2 => hpath0 _ hmeta0mem it2 hit2)).1, hstep]
              exact hreg
            · rw [(F3 _ (fun it2 hit2 => hnv0 it2 hit2)).1 it.t, hstep]
          · intro hnone; simp at hnone
          · intro hnone; simp at hnone
      | none =>
          by_cases hmock : it.vdef.model_source = some "mock"
          · have hstep := itemStep_mock hash now (vm, res) it hhash hc0 hreg hmock
            refine ⟨?_, ?_, ?_⟩
            · intro hsome; simp at hsome
            · intro _ _
              refine ⟨?_, ?_, ?_⟩
              · rw [F4 _ (fun it2 hit2 => hres0 it2 hit2), hstep.2.2.2.2]
                exact dictGet_dictSet_self _ _ _
              · rw [(F2 _ (fun it2 hit2 => hpath0 _ hmeta0mem it2 hit2)).1]
                exact hstep.2.1
              · rw [(F2 _ (fun it2 hit2 => hpath0 _ hmock0mem it2 hit2)).2]
                exact hstep.2.2.2.1
            · intro _ hnm; exact absurd hmock hnm
          · have hstep := itemStep_nonmock hash now (vm, res) it hc0 hreg hmock
            refine ⟨?_, ?_, ?_⟩
            · intro hsome; simp at hsome
            · intro _ hm; exact absurd hm hmock
            · intro _ _
              rw [F4 _ (fun it2 hit2 => hres0 it2 hit2), hstep]
              exact dictGet_dictSet_self _ _ _
    · -- `it` is among the remaining items
      have hmetaMemIt : itemMetaPath vm.models_base_path it
          ∈ itemPaths vm.models_base_path it := by simp [itemPaths]
      have hc2 : ∀ it2 ∈ rest,
          dictGet (itemNvKey it2)
            (itemStep hash now (vm, res) it0).1.metadataCache = none := by
        intro it2 hit2
        rw [f4 _ (Ne.symm (hnv0 it2 hit2))]
        exact hc it2 (List.mem_cons_of_mem _ hit2)
      have hpnd2 : (rest.flatMap
          (itemPaths (itemStep hash now (vm, res) it0).1.models_base_path)).Nodup := by
        rw [hb]
        exact hpnd.2.1
      have hfiles : dictGet (itemMetaPath vm.models_base_path it)
          (itemStep hash now (vm, res) it0).1.metadataFiles
          = dictGet (itemMetaPath vm.models_base_path it) vm.metadataFiles := by
        apply f2
        intro hq
        exact hpath0 _ hmeta0mem it hrest (hq ▸ hmetaMemIt)
      have hreg1 : dictGet (itemNvKey it)
          ((itemStep hash now (vm, res) it0).1.registries it.t)
          = dictGet (itemNvKey it) (vm.registries it.t) := by
        apply f3
        exact Or.inr (Ne.symm (hnv0 it hrest))
      have ihit := ih (itemStep hash now (vm, res) it0).1
        (itemStep hash now (vm, res) it0).2 hc2 hknd.2 hrnd.2 hpnd2 it hrest
      rw [Prod.mk.eta] at ihit
      rw [hb] at ihit
      refine ⟨?_, ?_, ?_⟩
      · intro hsome
        rw [← hfiles] at hsome
        obtain ⟨ha, hb2, hcreg⟩ := ihit.1 hsome
        exact ⟨ha, by rw [hb2, hfiles], by rw [hcreg, hreg1]⟩
      · intro hnone hm
        rw [← hfiles] at hnone
        exact ihit.2.1 hnone hm
      · intro hnone hm
        rw [← hfiles] at hnone
        exact ihit.2.2 hnone hm

/-- C7 (amended): reconciliation over declared versions whose
`name:version` keys, result keys and on-disk paths are pairwise
collision-free (in particular, no two model types share a declared
`(name, version)` pair), starting from a Version Manager with an empty
metadata cache: every declared version whose metadata file already exists
gets result `True` with its metadata file and registry entry left
untouched; every not-yet-registered declared version with source `"mock"`
gets result `True` with a placeholder file written and the artifact
registered; every other not-yet-registered declared version gets result
`False`.  The run is a total function — no declared version can make it
raise.  (Without the collision-freedom proviso the claim fails: the
metadata cache is keyed by `name:version` only, see the counterexample.) -/
theorem initialize_models_reconcile (hash : List Nat → String) (doc : ConfigDoc)
    (vm : VMState) (now : Nat)
    (hhash : ∀ c, (hash c).length = 64)
    (hcache : vm.metadataCache = [])
    (hknd : ((declItems doc).map itemNvKey).Nodup)
    (hrnd : ((declItems doc).map itemResKey).Nodup)
    (hpnd : ((declItems doc).flatMap (itemPaths vm.models_base_path)).Nodup) :
    ∀ it ∈ declItems doc,
      ((dictGet (itemMetaPath vm.models_base_path it) vm.metadataFiles).isSome = true →
        dictGet (itemResKey it)
            ((initialize_models_from_config hash doc vm now).2) = some true ∧
        dictGet (itemMetaPath vm.models_base_path it)
            ((initialize_models_from_config hash doc vm now).1.metadataFiles)
          = dictGet (itemMetaPath vm.models_base_path it) vm.metadataFiles ∧
        dictGet (itemNvKey it)
            (((initialize_models_from_config hash doc vm now).1).registries it.t)
          = dictGet (itemNvKey it) (vm.registries it.t)) ∧
      (dictGet (itemMetaPath vm.models_base_path it) vm.metadataFiles = none →
        it.vdef.model_source = some "mock" →
        dictGet (itemResKey it)
            ((initialize_models_from_config hash doc vm now).2) = some true ∧
        (dictGet (itemMetaPath vm.models_base_path it)
            ((initialize_models_from_config hash doc vm now).1.metadataFiles)).isSome
          = true ∧
        (dictGet (itemMockPath vm.models_base_path it)
            ((initialize_models_from_config hash doc vm now).1.fileBytes)).isSome
          = true) ∧
      (dictGet (itemMetaPath vm.models_base_path it) vm.metadataFiles = none →
        ¬ it.vdef.model_source = some "mock" →
        dictGet (itemResKey it)
            ((initialize_models_from_config hash doc vm now).2) = some false) := by
  intro it hit
  rw [init_eq_itemsFold]
  exact itemsFold_spec hash now hhash (declItems doc) vm []
    (fun it2 _ => by rw [hcache]; rfl) hknd hrnd hpnd it hit

/-- C7 witness: reconciling a single declared mock parser artifact
`default:v1` against an empty Version Manager registers it and reports
`True` under key `task_parser:default:v1`. -/
theorem initialize_models_reconcile_witness :
    dictGet (itemResKey itC7)
      ((initialize_models_from_config constHash docC7w (initVMState "models") 0).2)
      = some true ∧
    (dictGet (itemMetaPath "models" itC7)
      ((initialize_models_from_config constHash docC7w
        (initVMState "models") 0).1.metadataFiles)).isSome = true := by
  have h := initialize_models_reconcile constHash docC7w (initVMState "models") 0
    (fun c => rfl) rfl (by decide) (by decide) (by decide) itC7 (by decide)
  exact ⟨(h.2.1 rfl rfl).1, (h.2.1 rfl rfl).2.1⟩

/-- C7 counterexample to the claim as stated: a document declaring mock
artifacts `default:v1` for BOTH the task-parser and the prioritizer type,
reconciled against an empty Version Manager.  The prioritizer's declared
version is mock and never registered, yet its result entry is `True` and
NO placeholder is registered for it — after registering the task-parser
artifact, the metadata cache (keyed `"default:v1"`, ignoring the type)
makes the prioritizer version look already registered. -/
theorem initialize_cross_type_counterexample :
    dictGet "prioritizer:default:v1"
      ((initialize_models_from_config constHash docC7x (initVMState "models") 0).2)
      = some true ∧
    dictGet (metadataFilePath "models" ModelType.prioritizer "default" "v1")
      ((initialize_models_from_config constHash docC7x
        (initVMState "models") 0).1.metadataFiles) = none ∧
    ((initialize_models_from_config constHash docC7x
        (initVMState "models") 0).1).registries ModelType.prioritizer = [] := by
  refine ⟨rfl, rfl, rfl⟩

end TaskMgmt
